import Mathlib

/-!
Verification of the line-sales-bot repository (src/server.js and
src/generate-token.js) against its natural-language specification.

Modelling conventions, used throughout:

* JavaScript strings are modelled as their UTF-8 byte sequences, of type
  `Str := List Nat` with every byte below 256.  String literals of the
  source are written through `utf8`, which performs the standard UTF-8
  encoding of a Lean string.
* JSON values are the inductive `Json`; a JavaScript value that may be
  `undefined` is `JsVal := Option Json` with `none` playing `undefined`.
* Node's crypto primitives are embedded concretely: SHA-256 follows
  FIPS 180-4, HMAC follows RFC 2104, and base64 follows RFC 4648, so that
  `crypto.createHmac("sha256", key).update(body).digest("base64")` is the
  executable function `hmacSha256Base64`.
* Fallible JavaScript expressions (property reads on `undefined`/`null`,
  functions that can throw) are embedded in `Except Unit` or return
  explicit outcome inductives.
-/

namespace LineBot

/-- A JavaScript string, modelled as its UTF-8 byte sequence. -/
abbrev Str := List Nat

/-- UTF-8 encoding of one Unicode scalar value (1 to 4 bytes). -/
def utf8Char (c : Nat) : List Nat :=
  if c < 128 then [c]
  else if c < 2048 then [192 + c / 64, 128 + c % 64]
  else if c < 65536 then [224 + c / 4096, 128 + c / 64 % 64, 128 + c % 64]
  else [240 + c / 262144, 128 + c / 4096 % 64, 128 + c / 64 % 64, 128 + c % 64]

/-- UTF-8 encoding of a Lean string, giving the byte sequence of the
corresponding JavaScript string. -/
def utf8 (s : String) : Str :=
  (s.toList.map fun c => utf8Char c.toNat).flatten

/-- Every byte of the sequence is an actual byte (below 256). -/
def ValidBytes (s : Str) : Prop := ∀ b ∈ s, b < 256

instance (s : Str) : Decidable (ValidBytes s) := by
  unfold ValidBytes; infer_instance

/-! ## SHA-256 (FIPS 180-4) over byte lists -/

/-- Right rotation of a 32-bit word. -/
def rotr32 (n x : Nat) : Nat := ((x >>> n) ||| (x <<< (32 - n))) % 4294967296

/-- Bitwise complement of a 32-bit word. -/
def bnot32 (x : Nat) : Nat := Nat.xor x 4294967295

def bigSigma0 (x : Nat) : Nat := Nat.xor (Nat.xor (rotr32 2 x) (rotr32 13 x)) (rotr32 22 x)
def bigSigma1 (x : Nat) : Nat := Nat.xor (Nat.xor (rotr32 6 x) (rotr32 11 x)) (rotr32 25 x)
def smallSigma0 (x : Nat) : Nat := Nat.xor (Nat.xor (rotr32 7 x) (rotr32 18 x)) (x >>> 3)
def smallSigma1 (x : Nat) : Nat := Nat.xor (Nat.xor (rotr32 17 x) (rotr32 19 x)) (x >>> 10)
def chF (e f g : Nat) : Nat := Nat.xor (Nat.land e f) (Nat.land (bnot32 e) g)
def majF (a b c : Nat) : Nat := Nat.xor (Nat.xor (Nat.land a b) (Nat.land a c)) (Nat.land b c)

/-- The 64 SHA-256 round constants. -/
def sha256K : List Nat :=
  [1116352408, 1899447441, 3049323471, 3921009573, 961987163, 1508970993,
   2453635748, 2870763221, 3624381080, 310598401, 607225278, 1426881987,
   1925078388, 2162078206, 2614888103, 3248222580, 3835390401, 4022224774,
   264347078, 604807628, 770255983, 1249150122, 1555081692, 1996064986,
   2554220882, 2821834349, 2952996808, 3210313671, 3336571891, 3584528711,
   113926993, 338241895, 666307205, 773529912, 1294757372, 1396182291,
   1695183700, 1986661051, 2177026350, 2456956037, 2730485921, 2820302411,
   3259730800, 3345764771, 3516065817, 3600352804, 4094571909, 275423344,
   430227734, 506948616, 659060556, 883997877, 958139571, 1322822218,
   1537002063, 1747873779, 1955562222, 2024104815, 2227730452, 2361852424,
   2428436474, 2756734187, 3204031479, 3329325298]

/-- The SHA-256 initial hash value. -/
def sha256H0 : List Nat :=
  [1779033703, 3144134277, 1013904242, 2773480762,
   1359893119, 2600822924, 528734635, 1541459225]

/-- Big-endian bytes of a 32-bit word. -/
def be32 (w : Nat) : Str := [w / 16777216 % 256, w / 65536 % 256, w / 256 % 256, w % 256]

/-- Big-endian bytes of a 64-bit length field. -/
def be64 (n : Nat) : Str :=
  [n / 72057594037927936 % 256, n / 281474976710656 % 256, n / 1099511627776 % 256,
   n / 4294967296 % 256, n / 16777216 % 256, n / 65536 % 256, n / 256 % 256, n % 256]

/-- Pack bytes into big-endian 32-bit words, four at a time. -/
def bytesToWords : Str → List Nat
  | a :: b :: c :: d :: r => (a * 16777216 + b * 65536 + c * 256 + d) :: bytesToWords r
  | _ => []

/-- Extend the sixteen message words: the accumulator holds the words produced
so far in reverse order, so index 1 is W(t-2) and index 15 is W(t-16). -/
def schedGo : Nat → List Nat → List Nat
  | 0, acc => acc
  | f + 1, acc =>
      schedGo f (((smallSigma1 (acc.getD 1 0) + acc.getD 6 0
        + smallSigma0 (acc.getD 14 0) + acc.getD 15 0) % 4294967296) :: acc)

/-- The 64-word message schedule of one block. -/
def schedule (w16 : List Nat) : List Nat := (schedGo 48 w16.reverse).reverse

/-- One SHA-256 round on the eight-word working state. -/
def roundStep (st : List Nat) (kw : Nat × Nat) : List Nat :=
  match st with
  | [a, b, c, d, e, f, g, h] =>
      let t1 := (h + bigSigma1 e + chF e f g + kw.1 + kw.2) % 4294967296
      let t2 := (bigSigma0 a + majF a b c) % 4294967296
      [(t1 + t2) % 4294967296, a, b, c, (d + t1) % 4294967296, e, f, g]
  | _ => st

/-- Compress one 64-byte block into the running hash value. -/
def sha256Compress (h : List Nat) (block : Str) : List Nat :=
  let st := (sha256K.zip (schedule (bytesToWords block))).foldl roundStep h
  (h.zip st).map fun p => (p.1 + p.2) % 4294967296

/-- Merkle-Damgard padding: a 1 bit, zeros, and the 64-bit message bit length. -/
def sha256Pad (msg : Str) : Str :=
  msg ++ 128 :: List.replicate ((64 - (msg.length + 9) % 64) % 64) 0 ++ be64 (8 * msg.length)

/-- Split into 64-byte blocks; the fuel bounds the recursion and any fuel at
least the list length is enough. -/
def chunks64 : Nat → Str → List Str
  | 0, _ => []
  | _, [] => []
  | f + 1, l => l.take 64 :: chunks64 f (l.drop 64)

/-- SHA-256 digest (32 bytes) of a byte sequence. -/
def sha256 (msg : Str) : Str :=
  let padded := sha256Pad msg
  (((chunks64 padded.length padded).foldl sha256Compress sha256H0).map be32).flatten

/-- HMAC-SHA-256 (RFC 2104): the embedding of Node's
createHmac("sha256", key).update(msg).digest(). -/
def hmacSha256 (key msg : Str) : Str :=
  let k0 := if 64 < key.length then sha256 key else key
  let k1 := k0 ++ List.replicate (64 - k0.length) 0
  sha256 ((k1.map (Nat.xor 92)) ++ sha256 ((k1.map (Nat.xor 54)) ++ msg))

/-! ## Base64 (RFC 4648) -/

/-- The base64 character for a sextet. -/
def b64Char (s : Nat) : Nat :=
  if s < 26 then 65 + s
  else if s < 52 then 71 + s
  else if s < 62 then s - 4
  else if s = 62 then 43 else 47

/-- Standard base64 encoding with padding: the embedding of
Buffer.toString("base64") and of digest("base64"). -/
def b64encode : Str → Str
  | [] => []
  | [a] => [b64Char (a / 4), b64Char (a % 4 * 16), 61, 61]
  | [a, b] => [b64Char (a / 4), b64Char (a % 4 * 16 + b / 16), b64Char (b % 16 * 4), 61]
  | a :: b :: c :: r =>
      b64Char (a / 4) :: b64Char (a % 4 * 16 + b / 16) :: b64Char (b % 16 * 4 + c / 64)
        :: b64Char (c % 64) :: b64encode r

/-- The character rewrite of the base64url replacements: plus to minus,
slash to underscore. -/
def urlMapChar (c : Nat) : Nat := if c = 43 then 45 else if c = 47 then 95 else c

/-- The base64url rewrite done by generate-token.js on every encoded part:
replace(/=/g, "").replace(/+/g, "-").replace(///g, "_"). -/
def urlReplace : Str → Str
  | [] => []
  | c :: r => if c = 61 then urlReplace r else urlMapChar c :: urlReplace r

/-- base64url without padding, as produced by generate-token.js. -/
def b64url (bs : Str) : Str := urlReplace (b64encode bs)

/-- Value of one base64url character. -/
def b64urlVal (c : Nat) : Option Nat :=
  if 65 ≤ c ∧ c ≤ 90 then some (c - 65)
  else if 97 ≤ c ∧ c ≤ 122 then some (c - 71)
  else if 48 ≤ c ∧ c ≤ 57 then some (c + 4)
  else if c = 45 then some 62
  else if c = 95 then some 63
  else none

/-- Map every character of an alleged base64url string to its sextet value. -/
def b64urlVals : Str → Option (List Nat)
  | [] => some []
  | c :: r =>
      match b64urlVal c, b64urlVals r with
      | some v, some vs => some (v :: vs)
      | _, _ => none

/-- Reassemble bytes from sextets of an unpadded base64url encoding. -/
def sextetsToBytes : List Nat → Option Str
  | [] => some []
  | [_] => none
  | [a, b] => if b % 16 = 0 then some [a * 4 + b / 16] else none
  | [a, b, c] => if c % 4 = 0 then some [a * 4 + b / 16, b % 16 * 16 + c / 4] else none
  | a :: b :: c :: d :: r =>
      match sextetsToBytes r with
      | some bs => some ((a * 4 + b / 16) :: (b % 16 * 16 + c / 4) :: (c % 4 * 64 + d) :: bs)
      | none => none

/-- Decode an unpadded base64url string to its byte sequence. -/
def b64urlDecode (s : Str) : Option Str :=
  match b64urlVals s with
  | some vs => sextetsToBytes vs
  | none => none

/-! ## JSON values

Numbers are restricted to integers: every numeric value this program
produces or compares (intentScore, exp, token_exp) is an integer. -/

inductive Json where
  | null : Json
  | bool (b : Bool) : Json
  | num (n : Int) : Json
  | str (s : Str) : Json
  | arr (elems : List Json) : Json
  | obj (fields : List (Str × Json)) : Json

/-- A JavaScript value as it occurs in this program: a JSON value or
undefined. -/
abbrev JsVal := Option Json

/-- Decimal digits of a natural number, most significant first; any fuel
above the number itself is enough. -/
def natDigitsF : Nat → Nat → Str
  | 0, _ => []
  | f + 1, n => if n < 10 then [48 + n] else natDigitsF f (n / 10) ++ [48 + n % 10]

/-- Decimal digits of a natural number. -/
def natDigits (n : Nat) : Str := natDigitsF (n + 1) n

/-- Decimal representation of an integer, as JSON.stringify prints it. -/
def intDigits : Int → Str
  | .ofNat n => natDigits n
  | .negSucc m => 45 :: natDigits (m + 1)

/-- Lowercase hexadecimal digit. -/
def hexDigit (d : Nat) : Nat := if d < 10 then 48 + d else 87 + d

/-- JSON.stringify escaping of one byte of string content: quote and
backslash, the five short control escapes, u00xx for other control bytes,
everything else verbatim. -/
def escByte (b : Nat) : Str :=
  if b = 34 then [92, 34]
  else if b = 92 then [92, 92]
  else if b = 8 then [92, 98]
  else if b = 9 then [92, 116]
  else if b = 10 then [92, 110]
  else if b = 12 then [92, 102]
  else if b = 13 then [92, 114]
  else if b < 32 then [92, 117, 48, 48, hexDigit (b / 16), hexDigit (b % 16)]
  else [b]

/-- JSON.stringify escaping of string content. -/
def escStr (s : Str) : Str := (s.map escByte).flatten

mutual

/-- The embedding of JSON.stringify: compact output, no whitespace,
fields in insertion order. -/
def stringify : Json → Str
  | .null => [110, 117, 108, 108]
  | .bool true => [116, 114, 117, 101]
  | .bool false => [102, 97, 108, 115, 101]
  | .num n => intDigits n
  | .str s => 34 :: escStr s ++ [34]
  | .arr xs => 91 :: stringifyElems xs ++ [93]
  | .obj kvs => 123 :: stringifyKvs kvs ++ [125]

/-- Comma-separated array elements. -/
def stringifyElems : List Json → Str
  | [] => []
  | [x] => stringify x
  | x :: r => stringify x ++ 44 :: stringifyElems r

/-- Comma-separated object members, each a quoted key, a colon and a value. -/
def stringifyKvs : List (Str × Json) → Str
  | [] => []
  | [(k, v)] => 34 :: escStr k ++ 34 :: 58 :: stringify v
  | (k, v) :: r => (34 :: escStr k ++ 34 :: 58 :: stringify v) ++ 44 :: stringifyKvs r

end

/-! ## JSON parsing (the embedding of JSON.parse) -/

/-- JSON whitespace. -/
def isWs (b : Nat) : Bool := b = 32 || b = 9 || b = 10 || b = 13

/-- Skip leading JSON whitespace. -/
def skipWs : Str → Str
  | [] => []
  | b :: r => if isWs b then skipWs r else b :: r

/-- Value of a hexadecimal digit character. -/
def hexVal (b : Nat) : Option Nat :=
  if 48 ≤ b ∧ b ≤ 57 then some (b - 48)
  else if 97 ≤ b ∧ b ≤ 102 then some (b - 87)
  else if 65 ≤ b ∧ b ≤ 70 then some (b - 55)
  else none

/-- Parse string content after the opening quote, returning the content and
the remainder after the closing quote.  A u-escape denotes a Unicode scalar,
delivered as its UTF-8 bytes. -/
def parseStrBody : Str → Option (Str × Str)
  | [] => none
  | b :: r =>
    if b = 34 then some ([], r)
    else if b = 92 then
      match r with
      | [] => none
      | c :: r2 =>
        if c = 34 then (fun p => (34 :: p.1, p.2)) <$> parseStrBody r2
        else if c = 92 then (fun p => (92 :: p.1, p.2)) <$> parseStrBody r2
        else if c = 47 then (fun p => (47 :: p.1, p.2)) <$> parseStrBody r2
        else if c = 98 then (fun p => (8 :: p.1, p.2)) <$> parseStrBody r2
        else if c = 116 then (fun p => (9 :: p.1, p.2)) <$> parseStrBody r2
        else if c = 110 then (fun p => (10 :: p.1, p.2)) <$> parseStrBody r2
        else if c = 102 then (fun p => (12 :: p.1, p.2)) <$> parseStrBody r2
        else if c = 114 then (fun p => (13 :: p.1, p.2)) <$> parseStrBody r2
        else if c = 117 then
          match r2 with
          | h1 :: h2 :: h3 :: h4 :: r3 =>
            match hexVal h1, hexVal h2, hexVal h3, hexVal h4 with
            | some x1, some x2, some x3, some x4 =>
                (fun p => (utf8Char (x1 * 4096 + x2 * 256 + x3 * 16 + x4) ++ p.1, p.2)) <$>
                  parseStrBody r3
            | _, _, _, _ => none
          | _ => none
        else none
    else (fun p => (b :: p.1, p.2)) <$> parseStrBody r

/-- Is the byte a decimal digit character. -/
def isDigit (b : Nat) : Bool := 48 ≤ b && b ≤ 57

/-- Accumulate a maximal run of decimal digits. -/
def digitsGo : Nat → Str → Nat × Str
  | acc, [] => (acc, [])
  | acc, b :: r => if isDigit b then digitsGo (acc * 10 + (b - 48)) r else (acc, b :: r)

/-- Does the remainder not continue the number (no further digit and no
fractional or exponent marker). -/
def numStop : Str → Bool
  | [] => true
  | b :: _ => !isDigit b && !(b = 46) && !(b = 101) && !(b = 69)

/-- Finish an integer literal once its digits are read: fractional or
exponent forms are outside this model (the program only ever handles
integer numerics) and are rejected. -/
def afterDigits (neg : Bool) (p : Nat × Str) : Option (Json × Str) :=
  match p with
  | (v, []) => some (.num (if neg then -(v : Int) else (v : Int)), [])
  | (v, b :: r) =>
    if b = 46 || b = 101 || b = 69 then none
    else some (.num (if neg then -(v : Int) else (v : Int)), b :: r)

/-- Parse an integer JSON number. -/
def parseNum : Str → Option (Json × Str)
  | [] => none
  | b :: r =>
    if b = 45 then
      match r with
      | [] => none
      | b2 :: r2 => if isDigit b2 then afterDigits true (digitsGo 0 (b2 :: r2)) else none
    else if isDigit b then afterDigits false (digitsGo 0 (b :: r))
    else none

mutual

/-- Parse one JSON value; the fuel bounds nesting and any fuel above the
input length is enough. -/
def parseVal : Nat → Str → Option (Json × Str)
  | 0, _ => none
  | f + 1, s =>
    match skipWs s with
    | [] => none
    | b :: r =>
      if b = 110 then
        match r with
        | 117 :: 108 :: 108 :: r2 => some (.null, r2)
        | _ => none
      else if b = 116 then
        match r with
        | 114 :: 117 :: 101 :: r2 => some (.bool true, r2)
        | _ => none
      else if b = 102 then
        match r with
        | 97 :: 108 :: 115 :: 101 :: r2 => some (.bool false, r2)
        | _ => none
      else if b = 34 then (fun p => (Json.str p.1, p.2)) <$> parseStrBody r
      else if b = 91 then
        match skipWs r with
        | 93 :: r2 => some (.arr [], r2)
        | r2 => (fun p => (Json.arr p.1, p.2)) <$> parseElems f r2
      else if b = 123 then
        match skipWs r with
        | 125 :: r2 => some (.obj [], r2)
        | r2 => (fun p => (Json.obj p.1, p.2)) <$> parseMembers f r2
      else parseNum (b :: r)

/-- Parse the elements of a nonempty array, up to and including the closing
bracket. -/
def parseElems : Nat → Str → Option (List Json × Str)
  | 0, _ => none
  | f + 1, s =>
    match parseVal f s with
    | none => none
    | some (v, r) =>
      match skipWs r with
      | 44 :: r2 =>
        (match parseElems f r2 with
         | some (vs, r3) => some (v :: vs, r3)
         | none => none)
      | 93 :: r2 => some ([v], r2)
      | _ => none

/-- Parse the members of a nonempty object, up to and including the closing
brace. -/
def parseMembers : Nat → Str → Option (List (Str × Json) × Str)
  | 0, _ => none
  | f + 1, s =>
    match skipWs s with
    | 34 :: r =>
      (match parseStrBody r with
       | none => none
       | some (k, r2) =>
         match skipWs r2 with
         | 58 :: r3 =>
           (match parseVal f r3 with
            | none => none
            | some (v, r4) =>
              match skipWs r4 with
              | 44 :: r5 =>
                (match parseMembers f r5 with
                 | some (kvs, r6) => some ((k, v) :: kvs, r6)
                 | none => none)
              | 125 :: r5 => some ([(k, v)], r5)
              | _ => none)
         | _ => none)
    | _ => none

end

/-- The embedding of JSON.parse: one JSON value spanning the whole input,
up to surrounding whitespace; returns none where JSON.parse throws. -/
def parseWhole (s : Str) : Option Json :=
  match parseVal (s.length + 1) s with
  | some (v, r) => if skipWs r = [] then some v else none
  | none => none

/-! ## JavaScript value semantics used by the program -/

/-- Last-wins field lookup on an object, matching how JSON.parse resolves
duplicate keys. -/
def lookupField (kvs : List (Str × Json)) (k : Str) : JsVal :=
  match kvs with
  | [] => none
  | (k1, v) :: r => match lookupField r k with
    | some w => some w
    | none => if k1 = k then some v else none

/-- Throw-free view of a property read: an object yields its field, anything
else yields undefined. -/
def fld (v : JsVal) (k : Str) : JsVal :=
  match v with
  | some (.obj kvs) => lookupField kvs k
  | _ => none

/-- A property read as JavaScript performs it: reading from undefined or
null throws a TypeError (the error case); any other value yields the field
or undefined. -/
def jsGet (v : JsVal) (k : Str) : Except Unit JsVal :=
  match v with
  | none => .error ()
  | some .null => .error ()
  | some (.obj kvs) => .ok (lookupField kvs k)
  | some _ => .ok none

/-- Indexing with 0, as the classifier does on response.data.content:
arrays yield their head, strings their first byte, objects their "0" key;
undefined and null throw. -/
def jsIdx0 (v : JsVal) : Except Unit JsVal :=
  match v with
  | none => .error ()
  | some .null => .error ()
  | some (.arr xs) => .ok xs.head?
  | some (.str s) => .ok (match s with | [] => none | b :: _ => some (.str [b]))
  | some (.obj kvs) => .ok (lookupField kvs [48])
  | some _ => .ok none

/-- JavaScript falsiness of a value in this model: undefined, null, false,
0 and the empty string are falsy. -/
def jsFalsy (v : JsVal) : Bool :=
  match v with
  | none => true
  | some .null => true
  | some (.bool false) => true
  | some (.num 0) => true
  | some (.str []) => true
  | _ => false

/-- Does the value strictly equal the given string (the === comparisons of
the dispatch loop compare against string literals). -/
def isStr (v : JsVal) (s : Str) : Bool :=
  match v with
  | some (.str t) => t = s
  | _ => false

/-- Truthiness of an optionally-configured environment string, as tested by
the if (!KEY) checks: absent or empty is falsy. -/
def sTruthy : Option Str → Bool
  | none => false
  | some [] => false
  | some _ => true

mutual

/-- String coercion of a JSON value, as JavaScript String() produces it. -/
def coerceJson : Json → Str
  | .null => [110, 117, 108, 108]
  | .bool true => [116, 114, 117, 101]
  | .bool false => [102, 97, 108, 115, 101]
  | .num n => intDigits n
  | .str s => s
  | .arr xs => coerceItems xs
  | .obj _ => utf8 "[object Object]"

/-- Array items joined by commas, null items contributing nothing. -/
def coerceItems : List Json → Str
  | [] => []
  | [x] => (match x with | .null => [] | y => coerceJson y)
  | x :: r => (match x with | .null => [] | y => coerceJson y) ++ 44 :: coerceItems r

end

/-- String coercion of a JavaScript value; undefined coerces to the text
undefined (which then fails to parse as JSON). -/
def jsCoerceStr : JsVal → Str
  | none => utf8 "undefined"
  | some j => coerceJson j

/-- Build an object literal whose properties may hold undefined; a property
holding undefined is observationally absent for every read this program
performs, so it is dropped. -/
def mkObj (kvs : List (Str × JsVal)) : Json :=
  .obj (kvs.filterMap fun kv => match kv.2 with | some v => some (kv.1, v) | none => none)

/-! ## src/server.js -/

/-- The embedding of validateLineSignature (src/server.js lines 26-33)
together with the behavior of its crypto calls on degenerate
configuration: createHmac throws a TypeError when LINE_CHANNEL_SECRET is
undefined, and update throws when the body is undefined; otherwise the
result is the strict equality of the base64 HMAC digest with the provided
header value (undefined never equals a string). -/
def validateLineSignature (secret : Option Str) (body : Option Str)
    (signature : Option Str) : Except Unit Bool :=
  match secret with
  | none => .error ()
  | some key =>
    match body with
    | none => .error ()
    | some b =>
      let hash := b64encode (hmacSha256 key b)
      .ok (match signature with
           | some sig => hash = sig
           | none => false)

/-- The convenience form used by the webhook route. -/
def hmacSha256Base64 (key msg : Str) : Str := b64encode (hmacSha256 key msg)

/-- Outcome of the outbound axios.post to the language-model endpoint:
axios rejects on network errors and non-2xx statuses, and resolves with the
parsed JSON body otherwise. -/
inductive SvcOutcome where
  | reject : SvcOutcome
  | resolve (data : Json) : SvcOutcome

/-- The extraction response.data.content[0].text (src/server.js line 78),
with the JavaScript throwing semantics of each step. -/
def svcTextOf (data : Json) : Except Unit JsVal := do
  let c ← jsGet (some data) (utf8 "content")
  let e0 ← jsIdx0 c
  jsGet e0 (utf8 "text")

/-- The fallback object of the catch branch (src/server.js lines 83-88). -/
def fallbackCatch (message : JsVal) : Json :=
  mkObj [(utf8 "type", some (.str (utf8 "unknown"))),
         (utf8 "intentScore", some (.num 0)),
         (utf8 "summary", message),
         (utf8 "suggestedAction", some (.str (utf8 "無法分析")))]

/-- The early-return object when no API key is configured
(src/server.js lines 39-43): note the field is response, not summary. -/
def fallbackNoKey (message : JsVal) : Json :=
  mkObj [(utf8 "type", some (.str (utf8 "unknown"))),
         (utf8 "intentScore", some (.num 0)),
         (utf8 "response", message)]

/-- The try-block of analyzeMessageWithClaude after the network call: the
extraction of content[0].text, its coercion to a string, and JSON.parse of
it — any step throwing is the error case, caught below. -/
def serviceResult (svc : SvcOutcome) : Except Unit Json :=
  match svc with
  | .reject => .error ()
  | .resolve data =>
    match svcTextOf data with
    | .error _ => .error ()
    | .ok t =>
      match parseWhole (jsCoerceStr t) with
      | some v => .ok v
      | none => .error ()

/-- The embedding of analyzeMessageWithClaude (src/server.js lines 36-90).
The whole service interaction is wrapped in try/catch, so the function
always returns a value: without a truthy API key the no-key object; on a
rejected call, a throwing extraction, or unparseable output the catch
fallback; on parseable output the parsed JSON exactly as parsed, with no
field validation. -/
def analyzeMessageWithClaude (apiKey : Option Str) (svc : SvcOutcome)
    (message : JsVal) : Json :=
  if sTruthy apiKey = false then fallbackNoKey message
  else
    match serviceResult svc with
    | .ok analysis => analysis
    | .error _ => fallbackCatch message

/-- One row written to the sink by logToSheet (src/server.js lines 150-159):
the object literal built in the dispatch loop, one field per property. -/
structure LogRecord where
  timestamp : Str
  userId : JsVal
  groupId : JsVal
  message : JsVal
  analysisType : JsVal
  intentScore : JsVal
  summary : JsVal
  suggestedAction : JsVal

/-- What processing one event of the batch does. -/
inductive EventStep where
  /-- The event is not a text message: silently skipped. -/
  | skipped : EventStep
  /-- The event was classified and a row was written to the sink. -/
  | logged (r : LogRecord) : EventStep
  /-- A property read threw before the classifier was called. -/
  | threwBefore : EventStep
  /-- The classifier was called, then reading its result threw. -/
  | threwAfter : EventStep

/-- The body of the dispatch loop for one event (src/server.js
lines 125-162), with JavaScript property-read semantics: reading type on a
null event throws; for a text message, event.message.text is read, then
event.source.userId (throwing when source is absent), then the classifier
runs, then the console.log and logToSheet reads of the four analysis fields
throw exactly when the analysis value is JSON null. -/
def processEvent (apiKey : Option Str) (svc1 : SvcOutcome) (now : Str)
    (event : Json) : EventStep :=
  match jsGet (some event) (utf8 "type") with
  | .error _ => .threwBefore
  | .ok t =>
    if isStr t (utf8 "message") then
      match jsGet (some event) (utf8 "message") with
      | .error _ => .threwBefore
      | .ok m =>
        match jsGet m (utf8 "type") with
        | .error _ => .threwBefore
        | .ok mt =>
          if isStr mt (utf8 "text") then
            match jsGet m (utf8 "text") with
            | .error _ => .threwBefore
            | .ok userMessage =>
              match jsGet (some event) (utf8 "source") with
              | .error _ => .threwBefore
              | .ok src =>
                match jsGet src (utf8 "userId") with
                | .error _ => .threwBefore
                | .ok userId =>
                  match jsGet src (utf8 "groupId") with
                  | .error _ => .threwBefore
                  | .ok gid =>
                    let groupId := if jsFalsy gid then some (.str (utf8 "N/A")) else gid
                    let analysis := analyzeMessageWithClaude apiKey svc1 userMessage
                    match analysis with
                    | .null => .threwAfter
                    | a =>
                      .logged { timestamp := now, userId := userId, groupId := groupId,
                                message := userMessage,
                                analysisType := fld (some a) (utf8 "type"),
                                intentScore := fld (some a) (utf8 "intentScore"),
                                summary := fld (some a) (utf8 "summary"),
                                suggestedAction := fld (some a) (utf8 "suggestedAction") }
          else .skipped
    else .skipped

/-- The sequential dispatch loop over the batch: events in array order, the
service oracle indexed by how many classifier calls have happened so far.
Returns the sink rows written, the final call index, and whether an event
threw (which aborts the rest of the batch and the response). -/
def processEvents (apiKey : Option Str) (svc : Nat → SvcOutcome) (now : Str) :
    Nat → List Json → List LogRecord × Nat × Bool
  | i, [] => ([], i, false)
  | i, e :: rest =>
    match processEvent apiKey (svc i) now e with
    | .skipped => processEvents apiKey svc now i rest
    | .logged r =>
      match processEvents apiKey svc now (i + 1) rest with
      | (rs, i2, th) => (r :: rs, i2, th)
    | .threwBefore => ([], i, true)
    | .threwAfter => ([], i + 1, true)

/-- The request state the webhook route actually sees. -/
structure WebhookReq where
  rawBody : Option Str
  body : JsVal
  signature : Option Str

/-- What the webhook caller observes: an HTTP response, or nothing at all
when the async handler throws (the rejection is only logged by the
process-level unhandledRejection hook; no response is ever sent). -/
inductive HandlerOutcome where
  | response (status : Nat) (body : Json) (records : List LogRecord) (calls : Nat) : HandlerOutcome
  | thrown (records : List LogRecord) (calls : Nat) : HandlerOutcome

/-- JSON.stringify as applied to a possibly-undefined value:
JSON.stringify(undefined) is undefined. -/
def jsonStringifyVal : JsVal → Option Str
  | none => none
  | some v => some (stringify v)

/-- The string handed to validateLineSignature (src/server.js line 110):
req.rawBody when truthy, else the re-serialization of the parsed body. -/
def sigInput (req : WebhookReq) : Option Str :=
  match req.rawBody with
  | some r => if r = [] then jsonStringifyVal req.body else some r
  | none => jsonStringifyVal req.body

/-- The embedding of the POST /webhook handler (src/server.js
lines 108-166).  A failed verification answers 401 with no dispatch; a
passed verification iterates req.body.events (throwing when that is not
iterable, a string iterating as its characters) and answers 200 once the
whole batch completed without a throw. -/
def webhookPost (secret apiKey : Option Str) (svc : Nat → SvcOutcome) (now : Str)
    (req : WebhookReq) : HandlerOutcome :=
  match validateLineSignature secret (sigInput req) req.signature with
  | .error _ => .thrown [] 0
  | .ok false =>
      .response 401 (.obj [(utf8 "error", .str (utf8 "Invalid signature"))]) [] 0
  | .ok true =>
    match jsGet req.body (utf8 "events") with
    | .error _ => .thrown [] 0
    | .ok evs =>
      match evs with
      | some (.arr events) =>
        (match processEvents apiKey svc now 0 events with
         | (rs, n, true) => .thrown rs n
         | (rs, n, false) => .response 200 (.obj [(utf8 "ok", .bool true)]) rs n)
      | some (.str s) =>
        (match processEvents apiKey svc now 0 (s.map fun b => Json.str [b]) with
         | (rs, n, true) => .thrown rs n
         | (rs, n, false) => .response 200 (.obj [(utf8 "ok", .bool true)]) rs n)
      | _ => .thrown [] 0

/-- The GET /health handler (src/server.js lines 176-183): status code and
response body. -/
def healthGet (secret apiKey : Option Str) (now : Str) : Nat × Json :=
  (200, .obj [(utf8 "status", .str (utf8 "ok")),
              (utf8 "timestamp", .str now),
              (utf8 "channelSecretConfigured", .bool (sTruthy secret)),
              (utf8 "claudeConfigured", .bool (sTruthy apiKey))])

/-! ## The express application stack

src/server.js registers, in order: express.json() with no verify hook
(line 15), the POST /webhook route (line 108), express.json() with the
rawBody-capturing verify hook (line 169), and the GET /health route
(line 176).  Express runs them in registration order; a json parser skips a
request whose body was already parsed, and its verify hook receives the raw
buffer just before parsing. -/

inductive AppItem where
  | jsonMw (captureRaw : Bool) : AppItem
  | webhookRoute : AppItem
  | healthRoute : AppItem

/-- The middleware and routes of src/server.js in registration order. -/
def appStack : List AppItem :=
  [.jsonMw false, .webhookRoute, .jsonMw true, .healthRoute]

/-- Per-request connection state threaded through the stack. -/
structure ConnState where
  rawBody : Option Str
  body : JsVal
  bodyParsed : Bool

/-- What the whole application answers. -/
inductive PipelineOutcome where
  /-- The webhook route ran and produced this outcome. -/
  | handled (o : HandlerOutcome) : PipelineOutcome
  /-- The health route answered. -/
  | health (status : Nat) (body : Json) : PipelineOutcome
  /-- express.json failed to parse the body: express answers 400. -/
  | badJson : PipelineOutcome
  /-- No route matched. -/
  | unmatched : PipelineOutcome

/-- Run the middleware stack on one request (assumed to carry a JSON
content type, as the upstream platform sends). -/
def runStack (secret apiKey : Option Str) (svc : Nat → SvcOutcome) (now : Str)
    (method path raw : Str) (sig : Option Str) :
    List AppItem → ConnState → PipelineOutcome
  | [], _ => .unmatched
  | .jsonMw cap :: rest, st =>
    if st.bodyParsed then runStack secret apiKey svc now method path raw sig rest st
    else
      let st1 : ConnState := if cap then { st with rawBody := some raw } else st
      match parseWhole raw with
      | some v =>
          runStack secret apiKey svc now method path raw sig rest
            { st1 with body := some v, bodyParsed := true }
      | none => .badJson
  | .webhookRoute :: rest, st =>
    if method = utf8 "POST" ∧ path = utf8 "/webhook" then
      .handled (webhookPost secret apiKey svc now
        { rawBody := st.rawBody, body := st.body, signature := sig })
    else runStack secret apiKey svc now method path raw sig rest st
  | .healthRoute :: rest, st =>
    if method = utf8 "GET" ∧ path = utf8 "/health" then
      .health (healthGet secret apiKey now).1 (healthGet secret apiKey now).2
    else runStack secret apiKey svc now method path raw sig rest st

/-! ## src/generate-token.js (the Token Minter)

The RSA primitives themselves are abstracted as function parameters:
exportPem stands for createPrivateKey + export (assumed total here; its own
failure modes are outside the claims), and rsaSign for
createSign("RSA-SHA256").sign, returning the raw signature bytes for a PEM
key and a message. -/

/-- The eight JWK fields generatePEM requires, in the order it checks
them. -/
def requiredFields : List Str :=
  [utf8 "n", utf8 "e", utf8 "d", utf8 "p", utf8 "q", utf8 "dp", utf8 "dq", utf8 "qi"]

/-- The field-check loop of generatePEM (src/generate-token.js lines 85-90):
each jwk[field] read can itself throw (a null credential), and the first
falsy field aborts with an error naming it. -/
def firstMissing (jwk : Json) : Except Unit (Option Str) :=
  (requiredFields.foldr
    (fun f rest => do
      let v ← jsGet (some jwk) f
      if jsFalsy v then pure (some f) else rest)
    (pure none))

/-- The embedding of generatePEM (src/generate-token.js lines 81-103): an
error names the first missing field; a property read on a non-object
credential that throws surfaces as a TypeError message. -/
def generatePEM (exportPem : Json → Str) (jwk : Json) : Except Str Str :=
  match firstMissing jwk with
  | .error _ => .error (utf8 "TypeError")
  | .ok (some f) => .error (utf8 "缺少私鑰欄位: " ++ f)
  | .ok none => .ok (exportPem jwk)

/-- The assertion header object built by generateJWT
(src/generate-token.js lines 43-47). -/
def jwtHeader (kid : Str) : Json :=
  .obj [(utf8 "alg", .str (utf8 "RS256")),
        (utf8 "typ", .str (utf8 "JWT")),
        (utf8 "kid", .str kid)]

/-- The assertion payload object built by generateJWT
(src/generate-token.js lines 50-56); nowMs is Date.now() in milliseconds
and exp is floor(nowMs/1000) + 3600. -/
def jwtPayload (cid : Str) (nowMs : Nat) : Json :=
  .obj [(utf8 "iss", .str cid),
        (utf8 "sub", .str cid),
        (utf8 "aud", .str (utf8 "https://api.line.me/")),
        (utf8 "exp", .num ((nowMs / 1000 + 3600 : Nat) : Int)),
        (utf8 "token_exp", .num ((86400 : Nat) : Int))]

/-- The embedding of generateJWT (src/generate-token.js lines 39-78):
header and payload stringified and base64url-rewritten, the private key
converted, the message signed, and the three parts joined by dots.
A generatePEM error propagates (the function throws). -/
def generateJWT (exportPem : Json → Str) (rsaSign : Str → Str → Str)
    (kid cid : Str) (nowMs : Nat) (jwk : Json) : Except Str Str :=
  let message := b64url (stringify (jwtHeader kid))
    ++ 46 :: b64url (stringify (jwtPayload cid nowMs))
  match generatePEM exportPem jwk with
  | .error e => .error e
  | .ok pem => .ok (message ++ 46 :: b64url (rsaSign pem message))

/-- Split a byte string at the dot character, as a consumer of the
assertion does. -/
def splitDot : Str → List Str
  | [] => [[]]
  | b :: r =>
    if b = 46 then [] :: splitDot r
    else
      match splitDot r with
      | s :: ss => (b :: s) :: ss
      | [] => [[b]]

/-- Is the character in the unpadded base64url alphabet. -/
def isB64urlChar (c : Nat) : Bool :=
  (48 ≤ c && c ≤ 57) || (65 ≤ c && c ≤ 90) || (97 ≤ c && c ≤ 122) || c = 45 || c = 95

/-- Decode one dot-separated part of the assertion: base64url-decode the
bytes, then parse them as JSON. -/
def decodeJwtPart (p : Str) : Option Json :=
  match b64urlDecode p with
  | some bs => parseWhole bs
  | none => none

/-- A flat object member whose value is a valid byte string or a natural
number — the shape of every member of the assertion header and payload. -/
def FlatMember (kv : Str × Json) : Prop :=
  ValidBytes kv.1 ∧
    ((∃ s, kv.2 = Json.str s ∧ ValidBytes s) ∨ (∃ n : Nat, kv.2 = Json.num (n : Int)))

/-- How the token-endpoint exchange ends, from the perspective of main. -/
inductive IssueOutcome where
  /-- The response carried an access_token: the promise resolves. -/
  | accepted : IssueOutcome
  /-- The response carried an error, or parsing it failed, or the request
  errored: the promise rejects and the catch in main exits 1. -/
  | rejected : IssueOutcome

/-- The POST body sent to /oauth2/v2.1/token
(src/generate-token.js lines 109-112). -/
def issueBody (jwt : Str) : Str :=
  stringify (.obj [(utf8 "grant_type",
                    .str (utf8 "urn:ietf:params:oauth:grant-type:jwt-bearer")),
                   (utf8 "assertion", .str jwt)])

/-- The observable result of one run of main. -/
structure MainResult where
  /-- some n when process.exit(n) was called; none when the run ended
  naturally. -/
  exitCode : Option Nat
  /-- Bodies POSTed to the token endpoint, in order. -/
  network : List Str
  /-- The error.message printed by the catch in main, when it ran. -/
  errMessage : Option Str

/-- The embedding of main (src/generate-token.js lines 174-191): generate
the JWT, then exchange it; any error before or during the exchange reaches
the catch, which prints error.message and exits 1.  A generateJWT throw
happens before any network request. -/
def mainRun (exportPem : Json → Str) (rsaSign : Str → Str → Str)
    (kid cid : Str) (nowMs : Nat) (jwk : Json) (issue : IssueOutcome) : MainResult :=
  match generateJWT exportPem rsaSign kid cid nowMs jwk with
  | .error e => { exitCode := some 1, network := [], errMessage := some e }
  | .ok jwt =>
    match issue with
    | .accepted => { exitCode := none, network := [issueBody jwt], errMessage := none }
    | .rejected => { exitCode := some 1, network := [issueBody jwt], errMessage := none }

/-! ## The data-model invariant on classification results -/

/-- The ClassificationResult invariant of the specification, read on the
object the classifier returned (the source field name is type, which the
specification calls category): the category is one of faq, high_intent,
other, unknown, and intentScore is an integer between 0 and 100. -/
def ClassOk (j : Json) : Bool :=
  (isStr (fld (some j) (utf8 "type")) (utf8 "faq") ||
   isStr (fld (some j) (utf8 "type")) (utf8 "high_intent") ||
   isStr (fld (some j) (utf8 "type")) (utf8 "other") ||
   isStr (fld (some j) (utf8 "type")) (utf8 "unknown")) &&
  (match fld (some j) (utf8 "intentScore") with
   | some (.num n) => decide (0 ≤ n ∧ n ≤ 100)
   | _ => false)

/-! ## Event well-formedness (the Event data model of the specification) -/

/-- Is the JSON value null. -/
def isNullJ : Json → Bool
  | .null => true
  | _ => false

/-- Is the JavaScript value defined and not null (so property reads on it
do not throw). -/
def definedNonNull : JsVal → Bool
  | none => false
  | some .null => false
  | some _ => true

/-- The dispatch filter: event kind message with message kind text. -/
def qualifies (e : Json) : Bool :=
  isStr (fld (some e) (utf8 "type")) (utf8 "message") &&
  isStr (fld (fld (some e) (utf8 "message")) (utf8 "type")) (utf8 "text")

/-- An element of the events array that is an Event in the sense of the
data model, as far as the dispatch loop dereferences it: not null; if its
kind is message, the message is present (and not null); and if it
qualifies, the source is present (and not null). -/
def wfEvent (e : Json) : Bool :=
  !(isNullJ e) &&
  (!(isStr (fld (some e) (utf8 "type")) (utf8 "message")) ||
    definedNonNull (fld (some e) (utf8 "message"))) &&
  (!(qualifies e) || definedNonNull (fld (some e) (utf8 "source")))

/-- The message text of a qualifying event, as the loop extracts it. -/
def eventText (e : Json) : JsVal :=
  fld (fld (some e) (utf8 "message")) (utf8 "text")

/-- A well-formed text-message event, for concrete instances. -/
def textEvent (txt uid : Str) : Json :=
  .obj [(utf8 "type", .str (utf8 "message")),
        (utf8 "message", .obj [(utf8 "type", .str (utf8 "text")),
                               (utf8 "text", .str txt)]),
        (utf8 "source", .obj [(utf8 "type", .str (utf8 "user")),
                              (utf8 "userId", .str uid)])]

/-- A non-message event, for concrete instances. -/
def followEvent : Json :=
  .obj [(utf8 "type", .str (utf8 "follow")),
        (utf8 "source", .obj [(utf8 "type", .str (utf8 "user")),
                              (utf8 "userId", .str (utf8 "U2"))])]

/-- A service response envelope whose model text is the given string. -/
def svcEnvelope (txt : Str) : Json :=
  .obj [(utf8 "content", .arr [.obj [(utf8 "text", .str txt)]])]

/-! ## Claim C2 — verification with an absent or empty secret -/

/-- C2, counterexample.  The claim says that with the secret absent or
empty no supplied signature can make verification succeed.  With the
secret configured as the empty string, the empty-key HMAC of the body is a
signature an external caller can compute and supply, and verification
succeeds. -/
theorem emptySecret_acceptsForgedSignature :
    validateLineSignature (some []) (some (utf8 "x"))
      (some (hmacSha256Base64 [] (utf8 "x"))) = .ok true := by
  simp [validateLineSignature, hmacSha256Base64]

/-- C2, amended.  When the secret is absent (undefined), createHmac throws,
so no signature is ever accepted; but when the secret is the empty string,
verification is an ordinary HMAC check with an empty key, which succeeds
for the matching empty-key signature — it is not fail-closed. -/
theorem validateLineSignature_absentThrows_emptyForgeable (body : Str) (sig : Option Str) :
    validateLineSignature none (some body) sig = .error () ∧
    validateLineSignature (some []) (some body)
      (some (hmacSha256Base64 [] body)) = .ok true := by
  refine ⟨rfl, ?_⟩
  simp [validateLineSignature, hmacSha256Base64]

/-! ## Claim C3 — classifier error handling -/

/-- C3, counterexample.  The claim says that a response whose text is JSON
missing the expected fields yields the exact fallback object.  A service
response whose model text is the empty JSON object parses successfully, so
the classifier returns that empty object unchanged — not the fallback. -/
theorem classifier_returnsUnvalidatedJson :
    analyzeMessageWithClaude (some (utf8 "k"))
        (.resolve (.obj [(utf8 "content",
          .arr [.obj [(utf8 "text", .str (utf8 "\x7b\x7d"))]])]))
        (some (.str (utf8 "hi")))
      = Json.obj [] ∧
    Json.obj [] ≠ fallbackCatch (some (.str (utf8 "hi"))) := by
  exact ⟨rfl, by simp [fallbackCatch, mkObj]⟩

/-- C3, amended.  With an API key configured, the classifier never throws
(it is a total function into Json) and resolves to the exact fallback
object on a rejected call, a throwing extraction, or output that does not
parse as JSON; but output that parses as JSON is returned exactly as
parsed, without field validation, so JSON missing the expected fields does
not produce the fallback. -/
theorem classifier_fallbackOnFailure (key : Option Str) (m : JsVal)
    (hk : sTruthy key = true) :
    analyzeMessageWithClaude key .reject m = fallbackCatch m ∧
    (∀ data, svcTextOf data = .error () →
      analyzeMessageWithClaude key (.resolve data) m = fallbackCatch m) ∧
    (∀ data t, svcTextOf data = .ok t → parseWhole (jsCoerceStr t) = none →
      analyzeMessageWithClaude key (.resolve data) m = fallbackCatch m) ∧
    (∀ data t v, svcTextOf data = .ok t → parseWhole (jsCoerceStr t) = some v →
      analyzeMessageWithClaude key (.resolve data) m = v) := by
  refine ⟨?_, ?_, ?_, ?_⟩
  · simp [analyzeMessageWithClaude, hk, serviceResult]
  · intro data h
    simp [analyzeMessageWithClaude, hk, serviceResult, h]
  · intro data t h hp
    simp [analyzeMessageWithClaude, hk, serviceResult, h, hp]
  · intro data t v h hp
    simp [analyzeMessageWithClaude, hk, serviceResult, h, hp]

/-- C3, witness for the amended theorem at a concrete key, message and
rejected service call. -/
theorem classifier_fallbackOnFailure_witness :
    sTruthy (some (utf8 "k")) = true ∧
    analyzeMessageWithClaude (some (utf8 "k")) .reject (some (.str (utf8 "hello")))
      = fallbackCatch (some (.str (utf8 "hello"))) :=
  ⟨by decide, (classifier_fallbackOnFailure (some (utf8 "k"))
      (some (.str (utf8 "hello"))) (by decide)).1⟩

/-! ## Claim C4 — classifier with no configured credential -/

/-- C4.  The claim (and the specification) says the no-credential result
carries the input message in summary; the code instead returns the object
type unknown, intentScore 0, response message — its summary property is
undefined, and every downstream consumer reads summary.  The result is
also independent of the service oracle: no network call is attempted. -/
theorem noKey_resultUsesResponseField :
    (∀ svc, analyzeMessageWithClaude none svc (some (.str (utf8 "hi"))) =
      Json.obj [(utf8 "type", .str (utf8 "unknown")),
                (utf8 "intentScore", .num 0),
                (utf8 "response", .str (utf8 "hi"))]) ∧
    fld (some (analyzeMessageWithClaude none .reject (some (.str (utf8 "hi")))))
      (utf8 "summary") = none :=
  ⟨fun _ => rfl, rfl⟩

/-! ## Claim C6 — the invariant on produced results -/

/-- C6, counterexample.  The claim says every produced result satisfies the
invariant; a service response whose text parses to an object with
intentScore 150 and no category is returned as-is and violates it. -/
theorem successPath_violatesInvariant :
    ClassOk (analyzeMessageWithClaude (some (utf8 "k"))
      (.resolve (.obj [(utf8 "content",
        .arr [.obj [(utf8 "text", .str (utf8 "\x7b\"intentScore\":150\x7d"))]])]))
      (some (.str (utf8 "hi")))) = false := by
  rfl

/-- C6, amended.  Both fallback paths (no credential, and failure with a
credential) always satisfy the data-model invariant; the success path
returns the parsed service JSON unvalidated, which need not satisfy it. -/
theorem fallbackResults_satisfyInvariant :
    (∀ key m, ClassOk (analyzeMessageWithClaude key .reject m) = true) ∧
    (∀ svc m, ClassOk (analyzeMessageWithClaude none svc m) = true) := by
  constructor
  · intro key m
    cases h : sTruthy key
    · simp only [analyzeMessageWithClaude, h]
      cases m <;> rfl
    · simp only [analyzeMessageWithClaude, h]
      cases m <;> rfl
  · intro svc m
    simp only [analyzeMessageWithClaude, sTruthy]
    cases m <;> rfl

/-! ## Claim C9 — minter failure on a missing RSA parameter -/

/-- C9.  A signing credential whose first missing required RSA parameter is
f makes the run fail before any network request: the thrown error message
names f, nothing is POSTed, and the process exits 1 — whatever the token
endpoint would have answered. -/
theorem minter_missingField_failsBeforeNetwork
    (exportPem : Json → Str) (rsaSign : Str → Str → Str) (kid cid : Str)
    (nowMs : Nat) (jwk : Json) (f : Str) (issue : IssueOutcome)
    (h : firstMissing jwk = .ok (some f)) :
    mainRun exportPem rsaSign kid cid nowMs jwk issue =
      { exitCode := some 1, network := [],
        errMessage := some (utf8 "缺少私鑰欄位: " ++ f) } := by
  simp [mainRun, generateJWT, generatePEM, h]

/-- C9, witness: a credential carrying n, e, d, p and q but no dp fails
naming dp, with the empty network trace and exit code 1. -/
theorem minter_missingField_witness :
    firstMissing (.obj [(utf8 "n", .str (utf8 "v")), (utf8 "e", .str (utf8 "v")),
      (utf8 "d", .str (utf8 "v")), (utf8 "p", .str (utf8 "v")),
      (utf8 "q", .str (utf8 "v"))]) = .ok (some (utf8 "dp")) ∧
    mainRun (fun _ => utf8 "PEM") (fun _ _ => utf8 "SIG") (utf8 "kid1") (utf8 "123")
      1700000000000
      (.obj [(utf8 "n", .str (utf8 "v")), (utf8 "e", .str (utf8 "v")),
        (utf8 "d", .str (utf8 "v")), (utf8 "p", .str (utf8 "v")),
        (utf8 "q", .str (utf8 "v"))]) .accepted =
      { exitCode := some 1, network := [],
        errMessage := some (utf8 "缺少私鑰欄位: " ++ utf8 "dp") } :=
  ⟨rfl, minter_missingField_failsBeforeNetwork _ _ _ _ _ _ _ _ rfl⟩

/-! ## Claim C10 — the health endpoint -/

/-- C10.  The health response depends on the configured secrets only
through their truthiness: configurations agreeing on which secrets are set
produce identical responses for the same clock reading, the status is
always ok with HTTP 200, and the configured-flags are the booleans of the
two truthiness tests — no secret value occurs in the body. -/
theorem health_dependsOnlyOnTruthiness (s1 k1 s2 k2 : Option Str) (now : Str)
    (hs : sTruthy s1 = sTruthy s2) (hk : sTruthy k1 = sTruthy k2) :
    healthGet s1 k1 now = healthGet s2 k2 now ∧
    healthGet s1 k1 now =
      (200, .obj [(utf8 "status", .str (utf8 "ok")),
                  (utf8 "timestamp", .str now),
                  (utf8 "channelSecretConfigured", .bool (sTruthy s1)),
                  (utf8 "claudeConfigured", .bool (sTruthy k1))]) := by
  constructor
  · simp [healthGet, hs, hk]
  · rfl

/-- C10, witness: two configurations with different secret values but equal
truthiness (a set secret in both; the key absent in one and empty in the
other) answer identically. -/
theorem health_dependsOnlyOnTruthiness_witness :
    sTruthy (some (utf8 "secretA")) = sTruthy (some (utf8 "secretB")) ∧
    sTruthy (none : Option Str) = sTruthy (some []) ∧
    healthGet (some (utf8 "secretA")) none (utf8 "T") =
      healthGet (some (utf8 "secretB")) (some []) (utf8 "T") :=
  ⟨by decide, by decide,
   (health_dependsOnlyOnTruthiness (some (utf8 "secretA")) none
     (some (utf8 "secretB")) (some []) (utf8 "T") (by decide) (by decide)).1⟩

/-! ## Dispatch-loop lemmas -/

/-- A property read on a defined, non-null value does not throw and yields
the field view. -/
theorem jsGet_defined (v : JsVal) (hv : definedNonNull v = true) (k : Str) :
    jsGet v k = .ok (fld v k) := by
  match v with
  | none => simp [definedNonNull] at hv
  | some j => cases j <;> simp_all [definedNonNull, jsGet, fld]

/-- Under event well-formedness and non-null classifier results, one pass
of the loop body skips a non-qualifying event and logs a record carrying
the extracted text for a qualifying one. -/
theorem processEvent_wf (key : Option Str) (s1 : SvcOutcome) (now : Str) (e : Json)
    (hw : wfEvent e = true)
    (hn : ∀ m, analyzeMessageWithClaude key s1 m ≠ .null) :
    (qualifies e = false → processEvent key s1 now e = .skipped) ∧
    (qualifies e = true → ∃ r, processEvent key s1 now e = .logged r ∧
      r.message = eventText e) := by
  have he : isNullJ e = false := by
    cases h : isNullJ e
    · rfl
    · simp [wfEvent, h] at hw
  have hge : ∀ k, jsGet (some e) k = .ok (fld (some e) k) := by
    intro k
    apply jsGet_defined
    cases e <;> simp_all [isNullJ, definedNonNull]
  by_cases ht : isStr (fld (some e) (utf8 "type")) (utf8 "message")
  · -- a message event: the message field is defined and non-null
    have hm : definedNonNull (fld (some e) (utf8 "message")) = true := by
      simp [wfEvent, ht] at hw
      exact hw.1.2
    have hgm : jsGet (fld (some e) (utf8 "message")) (utf8 "type")
        = .ok (fld (fld (some e) (utf8 "message")) (utf8 "type")) := jsGet_defined _ hm _
    have hgt : jsGet (fld (some e) (utf8 "message")) (utf8 "text")
        = .ok (fld (fld (some e) (utf8 "message")) (utf8 "text")) := jsGet_defined _ hm _
    by_cases hmt : isStr (fld (fld (some e) (utf8 "message")) (utf8 "type")) (utf8 "text")
    · -- qualifying
      have hq : qualifies e = true := by simp [qualifies, ht, hmt]
      have hs : definedNonNull (fld (some e) (utf8 "source")) = true := by
        simp [wfEvent, hq] at hw
        exact hw.2
      have hgu : jsGet (fld (some e) (utf8 "source")) (utf8 "userId")
          = .ok (fld (fld (some e) (utf8 "source")) (utf8 "userId")) := jsGet_defined _ hs _
      have hgg : jsGet (fld (some e) (utf8 "source")) (utf8 "groupId")
          = .ok (fld (fld (some e) (utf8 "source")) (utf8 "groupId")) := jsGet_defined _ hs _
      constructor
      · intro hq0
        rw [hq] at hq0
        exact absurd hq0 (by simp)
      · intro _
        unfold processEvent
        rw [hge, hge, hge]
        simp only [ht, if_true, hgm, hmt, hgt, hgu, hgg]
        cases ha : analyzeMessageWithClaude key s1 (fld (fld (some e) (utf8 "message")) (utf8 "text")) with
        | null => exact absurd ha (hn _)
        | bool b => exact ⟨_, rfl, rfl⟩
        | num n => exact ⟨_, rfl, rfl⟩
        | str s => exact ⟨_, rfl, rfl⟩
        | arr xs => exact ⟨_, rfl, rfl⟩
        | obj kvs => exact ⟨_, rfl, rfl⟩
    · -- message event of a non-text kind: skipped
      have hq : qualifies e = false := by simp [qualifies, hmt]
      constructor
      · intro _
        unfold processEvent
        rw [hge, hge]
        simp [ht, hgm, hmt]
      · intro hq1
        rw [hq] at hq1
        exact absurd hq1 (by simp)
  · -- not a message event: skipped
    have hq : qualifies e = false := by simp [qualifies, ht]
    constructor
    · intro _
      unfold processEvent
      rw [hge]
      simp [ht]
    · intro hq1
      rw [hq] at hq1
      exact absurd hq1 (by simp)

/-- Under event well-formedness and non-null classifier results, the loop
completes the whole batch: no throw, one classifier call per qualifying
event, and the written records carry the qualifying texts in array
order. -/
theorem processEvents_wf (key : Option Str) (svc : Nat → SvcOutcome) (now : Str)
    (events : List Json) (i : Nat)
    (hw : ∀ e ∈ events, wfEvent e = true)
    (hn : ∀ j m, analyzeMessageWithClaude key (svc j) m ≠ .null) :
    ∃ rs, processEvents key svc now i events = (rs, i + events.countP qualifies, false) ∧
      rs.map (fun r => r.message) = (events.filter qualifies).map eventText := by
  induction events generalizing i with
  | nil => exact ⟨[], rfl, rfl⟩
  | cons e rest ih =>
    have hwe : wfEvent e = true := hw e (List.mem_cons_self e rest)
    have hwr : ∀ x ∈ rest, wfEvent x = true := fun x hx => hw x (List.mem_cons_of_mem e hx)
    cases hq : qualifies e
    · have hsk := (processEvent_wf key (svc i) now e hwe (hn i)).1 hq
      have hc : List.countP qualifies (e :: rest) = List.countP qualifies rest := by
        simp [List.countP_cons, hq]
      obtain ⟨rs, hrs, hmap⟩ := ih i hwr
      refine ⟨rs, ?_, ?_⟩
      · rw [hc]
        simp only [processEvents, hsk, hrs]
      · simpa [List.filter_cons, hq] using hmap
    · obtain ⟨r, hr, hmsg⟩ := (processEvent_wf key (svc i) now e hwe (hn i)).2 hq
      have hc : List.countP qualifies (e :: rest) = List.countP qualifies rest + 1 := by
        simp [List.countP_cons, hq]
      obtain ⟨rs, hrs, hmap⟩ := ih (i + 1) hwr
      refine ⟨r :: rs, ?_, ?_⟩
      · rw [hc]
        simp only [processEvents, hr, hrs, Prod.mk.injEq]
        refine ⟨by simp, by omega, by simp⟩
      · simp [List.filter_cons, hq, hmsg, hmap]

/-! ## Claim C7 — batch counting, ordering and failure isolation -/

/-- C7, counterexample.  The claim says a batch with N text-message events
always produces exactly N classification and sink operations.  With two
well-formed text events and a service whose first response text is the
JSON literal null, the first classification succeeds with the value null,
the subsequent console.log read of analysis.type throws, the batch aborts:
the loop ends after one classifier call with zero sink writes, and the
second event is never processed. -/
theorem nullAnalysis_abortsBatch :
    ([textEvent (utf8 "a") (utf8 "U1"), textEvent (utf8 "b") (utf8 "U1")] :
        List Json).countP qualifies = 2 ∧
    processEvents (some (utf8 "k")) (fun _ => .resolve (svcEnvelope (utf8 "null")))
      (utf8 "T") 0
      [textEvent (utf8 "a") (utf8 "U1"), textEvent (utf8 "b") (utf8 "U1")]
      = ([], 1, true) := ⟨by decide, rfl⟩

/-- C7, amended.  Provided the batch elements are Events in the sense of
the data model (well-formed for the loop's dereferences) and no classifier
result is the JSON value null (a null analysis makes the result reads
throw and aborts the batch and the response), a batch with N qualifying
text-message events produces exactly N classifier calls and N sink writes,
the writes carry the qualifying texts in array order, and this holds for
every behavior of the classification service — in particular a
classification failure on one event degrades to the fallback and does not
prevent processing of the subsequent events. -/
theorem batch_countOrderIsolation (key : Option Str) (svc : Nat → SvcOutcome)
    (now : Str) (events : List Json)
    (hw : ∀ e ∈ events, wfEvent e = true)
    (hn : ∀ j m, analyzeMessageWithClaude key (svc j) m ≠ .null) :
    ∃ rs, processEvents key svc now 0 events = (rs, events.countP qualifies, false) ∧
      rs.length = events.countP qualifies ∧
      rs.map (fun r => r.message) = (events.filter qualifies).map eventText := by
  obtain ⟨rs, hrs, hmap⟩ := processEvents_wf key svc now events 0 hw hn
  refine ⟨rs, by simpa using hrs, ?_, hmap⟩
  have := congrArg List.length hmap
  simpa [← List.countP_eq_length_filter] using this

/-- C7, witness: three events — two well-formed text messages around a
follow event — with the service rejecting the first call (a classification
failure) and succeeding on the second: two classifier calls, two sink
writes, texts in array order, no abort. -/
theorem batch_countOrderIsolation_witness :
    (∀ e ∈ [textEvent (utf8 "hello") (utf8 "U1"), followEvent,
            textEvent (utf8 "price?") (utf8 "U2")], wfEvent e = true) ∧
    (∀ j m, analyzeMessageWithClaude (some (utf8 "k"))
        ((fun j => if j = 0 then SvcOutcome.reject
          else .resolve (svcEnvelope (utf8 "\x7b\"type\":\"faq\",\"intentScore\":10\x7d"))) j) m
        ≠ Json.null) ∧
    (∃ rs, processEvents (some (utf8 "k"))
        (fun j => if j = 0 then SvcOutcome.reject
          else .resolve (svcEnvelope (utf8 "\x7b\"type\":\"faq\",\"intentScore\":10\x7d")))
        (utf8 "T") 0
        [textEvent (utf8 "hello") (utf8 "U1"), followEvent,
         textEvent (utf8 "price?") (utf8 "U2")]
      = (rs, ([textEvent (utf8 "hello") (utf8 "U1"), followEvent,
               textEvent (utf8 "price?") (utf8 "U2")] : List Json).countP qualifies, false) ∧
      rs.length = ([textEvent (utf8 "hello") (utf8 "U1"), followEvent,
               textEvent (utf8 "price?") (utf8 "U2")] : List Json).countP qualifies ∧
      rs.map (fun r => r.message)
        = (([textEvent (utf8 "hello") (utf8 "U1"), followEvent,
             textEvent (utf8 "price?") (utf8 "U2")] : List Json).filter qualifies).map eventText) := by
  have hn : ∀ j m, analyzeMessageWithClaude (some (utf8 "k"))
      ((fun j => if j = 0 then SvcOutcome.reject
        else .resolve (svcEnvelope (utf8 "\x7b\"type\":\"faq\",\"intentScore\":10\x7d"))) j) m
      ≠ Json.null := by
    intro j m
    cases j with
    | zero =>
      have hk : sTruthy (some (utf8 "k")) = true := rfl
      cases m <;> simp [analyzeMessageWithClaude, serviceResult, fallbackCatch, mkObj, hk]
    | succ j =>
      have h1 : analyzeMessageWithClaude (some (utf8 "k"))
          (.resolve (svcEnvelope (utf8 "\x7b\"type\":\"faq\",\"intentScore\":10\x7d"))) m
          = Json.obj [(utf8 "type", .str (utf8 "faq")), (utf8 "intentScore", .num 10)] := rfl
      show analyzeMessageWithClaude (some (utf8 "k"))
          (.resolve (svcEnvelope (utf8 "\x7b\"type\":\"faq\",\"intentScore\":10\x7d"))) m
          ≠ Json.null
      rw [h1]
      simp
  exact ⟨by decide, hn,
    batch_countOrderIsolation (some (utf8 "k")) _ (utf8 "T") _ (by decide) hn⟩

/-! ## Claim C5 — the webhook response dichotomy -/

/-- With a configured secret and a defined body string, verification
reduces to whether the supplied header equals the body HMAC. -/
theorem validateLineSignature_someSecret (key b : Str) (sig : Option Str) :
    validateLineSignature (some key) (some b) sig
      = .ok (decide (sig = some (hmacSha256Base64 key b))) := by
  cases sig <;> simp [validateLineSignature, hmacSha256Base64, eq_comm]

set_option maxRecDepth 100000 in
/-- C5, counterexample.  The claim says every request is answered 200 or
401.  A request whose body is the empty JSON object, carrying the correct
signature for its re-serialized body, passes verification, and then
reading req.body.events yields undefined, so the for-of loop throws: the
handler rejects asynchronously and no HTTP response is sent at all. -/
theorem verifiedRequest_missingEvents_noResponse :
    webhookPost (some (utf8 "s")) none (fun _ => .reject) (utf8 "T")
      ⟨none, some (.obj []), some (hmacSha256Base64 (utf8 "s") (utf8 "\x7b\x7d"))⟩
      = .thrown [] 0 := by
  rfl

/-- C5, amended.  With the secret configured and a request whose parsed
body carries an events array of well-formed Events, and no classifier
result equal to JSON null, the response is exactly the claimed dichotomy:
200 with body ok true when the supplied signature matches (whatever the
classification service does), else 401 with the error body and no
dispatch.  Outside those conditions (an absent or null-prone events field,
a null analysis, an unconfigured secret) the handler throws instead and no
response is sent. -/
theorem webhook_responseDichotomy (secretS : Str) (key : Option Str)
    (svc : Nat → SvcOutcome) (now : Str) (v : Json) (sig : Option Str)
    (events : List Json)
    (hev : fld (some v) (utf8 "events") = some (.arr events))
    (hw : ∀ e ∈ events, wfEvent e = true)
    (hn : ∀ j m, analyzeMessageWithClaude key (svc j) m ≠ .null) :
    (sig = some (hmacSha256Base64 secretS (stringify v)) →
      ∃ rs, webhookPost (some secretS) key svc now ⟨none, some v, sig⟩
        = .response 200 (.obj [(utf8 "ok", .bool true)]) rs (events.countP qualifies)) ∧
    (sig ≠ some (hmacSha256Base64 secretS (stringify v)) →
      webhookPost (some secretS) key svc now ⟨none, some v, sig⟩
        = .response 401 (.obj [(utf8 "error", .str (utf8 "Invalid signature"))]) [] 0) := by
  cases v with
  | null => simp [fld] at hev
  | bool b => simp [fld] at hev
  | num n => simp [fld] at hev
  | str s => simp [fld] at hev
  | arr xs => simp [fld] at hev
  | obj kvs =>
    simp only [fld] at hev
    have hin : sigInput ⟨none, some (.obj kvs), sig⟩ = some (stringify (.obj kvs)) := rfl
    constructor
    · intro hsig
      obtain ⟨rs, hrs, _⟩ := processEvents_wf key svc now events 0 hw hn
      refine ⟨rs, ?_⟩
      unfold webhookPost
      rw [hin, validateLineSignature_someSecret, hsig]
      simp only [decide_eq_true_eq, decide_True]
      have hevs : jsGet (some (Json.obj kvs)) (utf8 "events") = .ok (some (.arr events)) := by
        simp [jsGet, hev]
      rw [hevs]
      simp only [hrs]
      norm_num
    · intro hne
      unfold webhookPost
      rw [hin, validateLineSignature_someSecret]
      have : decide (sig = some (hmacSha256Base64 secretS (stringify (.obj kvs)))) = false :=
        decide_eq_false hne
      rw [this]

/-- C5, witness for the amended theorem: a one-event batch with no
classification credential; a matching signature yields 200 ok. -/
theorem webhook_responseDichotomy_witness :
    fld (some (Json.obj [(utf8 "events", .arr [textEvent (utf8 "hi") (utf8 "U1")])]))
      (utf8 "events") = some (.arr [textEvent (utf8 "hi") (utf8 "U1")]) ∧
    (∀ e ∈ [textEvent (utf8 "hi") (utf8 "U1")], wfEvent e = true) ∧
    (∀ (j : Nat) (m : JsVal),
      analyzeMessageWithClaude none ((fun _ => SvcOutcome.reject) j) m ≠ Json.null) ∧
    (∃ rs, webhookPost (some (utf8 "s")) none (fun _ => .reject) (utf8 "T")
        ⟨none, some (Json.obj [(utf8 "events", .arr [textEvent (utf8 "hi") (utf8 "U1")])]),
         some (hmacSha256Base64 (utf8 "s")
           (stringify (Json.obj [(utf8 "events", .arr [textEvent (utf8 "hi") (utf8 "U1")])])))⟩
      = .response 200 (.obj [(utf8 "ok", .bool true)]) rs
          (([textEvent (utf8 "hi") (utf8 "U1")] : List Json).countP qualifies)) := by
  have hn : ∀ (j : Nat) (m : JsVal),
      analyzeMessageWithClaude none ((fun _ => SvcOutcome.reject) j) m ≠ Json.null := by
    intro j m
    cases m <;> simp [analyzeMessageWithClaude, fallbackNoKey, mkObj, sTruthy]
  exact ⟨rfl, by decide, hn,
    (webhook_responseDichotomy (utf8 "s") none (fun _ => .reject) (utf8 "T")
      (Json.obj [(utf8 "events", .arr [textEvent (utf8 "hi") (utf8 "U1")])])
      (some (hmacSha256Base64 (utf8 "s")
        (stringify (Json.obj [(utf8 "events", .arr [textEvent (utf8 "hi") (utf8 "U1")])]))))
      [textEvent (utf8 "hi") (utf8 "U1")] rfl (by decide) hn).1 rfl⟩

/-! ## Claim C1 — what bytes the signature check actually covers -/

set_option maxRecDepth 100000 in
/-- C1.  The raw-body capture middleware is registered after the plain
express.json() and after the routes, so the webhook route always sees
req.rawBody undefined and hands validateLineSignature the re-serialization
JSON.stringify(req.body) instead of the received bytes.  Concretely: for
the inbound raw body with a space after the colon, signed correctly by the
sender over exactly those bytes, the server recomputes the HMAC over the
compact re-serialization, the comparison fails, and the legitimately
signed request is rejected 401; the string handed to the verifier differs
from the byte sequence the sender signed. -/
theorem signature_checksReserializedBody :
    runStack (some (utf8 "s")) none (fun _ => .reject) (utf8 "T")
      (utf8 "POST") (utf8 "/webhook") (utf8 "\x7b\"events\": []\x7d")
      (some (hmacSha256Base64 (utf8 "s") (utf8 "\x7b\"events\": []\x7d")))
      appStack ⟨none, none, false⟩
      = .handled (.response 401
          (.obj [(utf8 "error", .str (utf8 "Invalid signature"))]) [] 0) ∧
    sigInput ⟨none, some (.obj [(utf8 "events", .arr [])]),
      some (hmacSha256Base64 (utf8 "s") (utf8 "\x7b\"events\": []\x7d"))⟩
      = some (utf8 "\x7b\"events\":[]\x7d") ∧
    utf8 "\x7b\"events\":[]\x7d" ≠ utf8 "\x7b\"events\": []\x7d" :=
  ⟨rfl, rfl, by decide⟩

/-! ## Base64url lemmas -/

/-- No sextet encodes to the padding character. -/
theorem b64Char_ne_61 (s : Nat) : b64Char s ≠ 61 := by
  unfold b64Char; split_ifs <;> omega

/-- Decoding inverts the encoding character map on every sextet. -/
theorem b64urlVal_urlMapChar : ∀ s < 64, b64urlVal (urlMapChar (b64Char s)) = some s := by
  decide

/-- The base64url rewrite keeps and maps every non-padding character. -/
theorem urlReplace_cons (c : Nat) (l : Str) (h : c ≠ 61) :
    urlReplace (c :: l) = urlMapChar c :: urlReplace l := by
  simp [urlReplace, h]

/-- Decoding the unpadded base64url encoding of a byte sequence recovers
it exactly. -/
theorem b64url_roundtrip : ∀ bs : Str, ValidBytes bs → b64urlDecode (b64url bs) = some bs
  | [], _ => rfl
  | [a], h => by
    have ha : a < 256 := h a (by simp)
    have e1 := b64urlVal_urlMapChar (a / 4) (by omega)
    have e2 := b64urlVal_urlMapChar (a % 4 * 16) (by omega)
    simp only [b64url, b64encode, urlReplace, b64urlDecode, b64urlVals, sextetsToBytes,
      if_neg (b64Char_ne_61 _), if_pos rfl, e1, e2]
    rw [if_pos (by omega : a % 4 * 16 % 16 = 0)]
    congr 2
    omega
  | [a, b], h => by
    have ha : a < 256 := h a (by simp)
    have hb : b < 256 := h b (by simp)
    have e1 := b64urlVal_urlMapChar (a / 4) (by omega)
    have e2 := b64urlVal_urlMapChar (a % 4 * 16 + b / 16) (by omega)
    have e3 := b64urlVal_urlMapChar (b % 16 * 4) (by omega)
    simp only [b64url, b64encode, urlReplace, b64urlDecode, b64urlVals, sextetsToBytes,
      if_neg (b64Char_ne_61 _), if_pos rfl, e1, e2, e3]
    rw [if_pos (by omega : b % 16 * 4 % 4 = 0)]
    congr 2
    · omega
    · congr 1
      omega
  | a :: b :: c :: r, h => by
    have ha : a < 256 := h a (by simp)
    have hb : b < 256 := h b (by simp)
    have hc : c < 256 := h c (by simp)
    have ih := b64url_roundtrip r (fun x hx => h x (by simp [hx]))
    have e1 := b64urlVal_urlMapChar (a / 4) (by omega)
    have e2 := b64urlVal_urlMapChar (a % 4 * 16 + b / 16) (by omega)
    have e3 := b64urlVal_urlMapChar (b % 16 * 4 + c / 64) (by omega)
    have e4 := b64urlVal_urlMapChar (c % 64) (by omega)
    rcases hv : b64urlVals (b64url r) with _ | vs
    · rw [b64urlDecode, hv] at ih
      simp at ih
    · rw [b64urlDecode, hv] at ih
      unfold b64url b64encode
      rw [urlReplace_cons _ _ (b64Char_ne_61 _), urlReplace_cons _ _ (b64Char_ne_61 _),
        urlReplace_cons _ _ (b64Char_ne_61 _), urlReplace_cons _ _ (b64Char_ne_61 _)]
      rw [b64urlDecode]
      simp only [show urlReplace (b64encode r) = b64url r from rfl]
      simp only [b64urlVals, e1, e2, e3, e4, hv]
      change sextetsToBytes vs = some r at ih
      simp only [sextetsToBytes]
      have g1 : a / 4 * 4 + (a % 4 * 16 + b / 16) / 16 = a := by omega
      have g2 : (a % 4 * 16 + b / 16) % 16 * 16 + (b % 16 * 4 + c / 64) / 4 = b := by omega
      have g3 : (b % 16 * 4 + c / 64) % 4 * 64 + c % 64 = c := by omega
      rw [g1, g2, g3, ih]

/-- Every character of an unpadded base64url encoding is in the base64url
alphabet (so in particular no padding and no dot). -/
theorem isB64urlChar_enc (s : Nat) : isB64urlChar (urlMapChar (b64Char s)) = true := by
  have h : b64Char s = 43 ∨ b64Char s = 47 ∨ (48 ≤ b64Char s ∧ b64Char s ≤ 57) ∨
      (65 ≤ b64Char s ∧ b64Char s ≤ 90) ∨ (97 ≤ b64Char s ∧ b64Char s ≤ 122) := by
    unfold b64Char; split_ifs <;> omega
  rcases h with h | h | h | h | h
  · rw [h]; decide
  · rw [h]; decide
  all_goals
    rw [urlMapChar, if_neg (by omega), if_neg (by omega)]
    unfold isB64urlChar
    simp only [Bool.or_eq_true, Bool.and_eq_true, decide_eq_true_eq]
    omega

/-- Characters of the rewrite come from non-padding characters of the
input through the character map. -/
theorem urlReplace_mem : ∀ (l : Str) (c : Nat), c ∈ urlReplace l →
    ∃ d ∈ l, d ≠ 61 ∧ c = urlMapChar d
  | [], c, hc => absurd hc (by simp [urlReplace])
  | d :: l, c, hc => by
    by_cases hd : d = 61
    · rw [urlReplace, if_pos hd] at hc
      obtain ⟨d2, hd2, h61, hm⟩ := urlReplace_mem l c hc
      exact ⟨d2, List.mem_cons_of_mem _ hd2, h61, hm⟩
    · rw [urlReplace, if_neg hd] at hc
      rcases List.mem_cons.1 hc with h | h
      · exact ⟨d, List.mem_cons_self _ _, hd, h⟩
      · obtain ⟨d2, hd2, h61, hm⟩ := urlReplace_mem l c h
        exact ⟨d2, List.mem_cons_of_mem _ hd2, h61, hm⟩

/-- Every character of a base64 encoding is a sextet character or
padding. -/
theorem b64encode_mem : ∀ (bs : Str) (c : Nat), c ∈ b64encode bs →
    c = 61 ∨ ∃ s, c = b64Char s
  | [], c, hc => absurd hc (by simp [b64encode])
  | [a], c, hc => by
    rcases hc with _ | ⟨_, _ | ⟨_, _ | ⟨_, _ | ⟨_, h⟩⟩⟩⟩
    · exact .inr ⟨a / 4, rfl⟩
    · exact .inr ⟨a % 4 * 16, rfl⟩
    · exact .inl rfl
    · exact .inl rfl
    · exact absurd h (List.not_mem_nil _)
  | [a, b], c, hc => by
    rcases hc with _ | ⟨_, _ | ⟨_, _ | ⟨_, _ | ⟨_, h⟩⟩⟩⟩
    · exact .inr ⟨a / 4, rfl⟩
    · exact .inr ⟨a % 4 * 16 + b / 16, rfl⟩
    · exact .inr ⟨b % 16 * 4, rfl⟩
    · exact .inl rfl
    · exact absurd h (List.not_mem_nil _)
  | a :: b :: c0 :: r, c, hc => by
    rcases hc with _ | ⟨_, _ | ⟨_, _ | ⟨_, _ | ⟨_, h⟩⟩⟩⟩
    · exact .inr ⟨a / 4, rfl⟩
    · exact .inr ⟨a % 4 * 16 + b / 16, rfl⟩
    · exact .inr ⟨b % 16 * 4 + c0 / 64, rfl⟩
    · exact .inr ⟨c0 % 64, rfl⟩
    · exact b64encode_mem r c h

/-- Every character of a base64url-rewritten encoding is in the
alphabet. -/
theorem b64url_chars (bs : Str) : ∀ c ∈ b64url bs, isB64urlChar c = true := by
  intro c hc
  obtain ⟨d, hd, _, hm⟩ := urlReplace_mem (b64encode bs) c hc
  rcases b64encode_mem bs d hd with h61 | ⟨s, hs⟩
  · exact absurd h61 (by assumption)
  · rw [hm, hs]
    exact isB64urlChar_enc s

/-- An alphabet character is never the dot separator. -/
theorem b64url_noDot (bs : Str) : ∀ c ∈ b64url bs, c ≠ 46 := by
  intro c hc
  have := b64url_chars bs c hc
  unfold isB64urlChar at this
  simp only [Bool.or_eq_true, Bool.and_eq_true, decide_eq_true_eq] at this
  omega

/-! ## Splitting the assertion at the dots -/

/-- A dot-free string splits to itself. -/
theorem splitDot_noDot : ∀ a : Str, (∀ c ∈ a, c ≠ 46) → splitDot a = [a]
  | [], _ => rfl
  | b :: r, h => by
    have hb : b ≠ 46 := h b (by simp)
    have ht := splitDot_noDot r (fun c hc => h c (by simp [hc]))
    simp [splitDot, hb, ht]

/-- Splitting peels one dot-free prefix at a time. -/
theorem splitDot_append (a rest : Str) (h : ∀ c ∈ a, c ≠ 46) :
    splitDot (a ++ 46 :: rest) = a :: splitDot rest := by
  induction a with
  | nil => simp [splitDot]
  | cons b r ih =>
    have hb : b ≠ 46 := h b (by simp)
    have ht := ih (fun c hc => h c (by simp [hc]))
    simp [splitDot, hb, ht]

/-! ## The JSON printer inverts through the parser -/

/-- Hexadecimal digits decode to their value. -/
theorem hexVal_hexDigit : ∀ d < 16, hexVal (hexDigit d) = some d := by
  decide

/-- Parsing string content inverts JSON.stringify escaping, for every byte
sequence. -/
theorem parseStrBody_escStr : ∀ (s rest : Str),
    parseStrBody (escStr s ++ 34 :: rest) = some (s, rest)
  | [], rest => by simp [escStr, parseStrBody.eq_def]
  | b :: s, rest => by
    have ih := parseStrBody_escStr s rest
    have hcons : escStr (b :: s) = escByte b ++ escStr s := by simp [escStr]
    rw [hcons, List.append_assoc]
    unfold escByte
    split_ifs with h1 h2 h3 h4 h5 h6 h7 h8
    · subst h1; rw [parseStrBody.eq_def]; simp [ih]
    · subst h2; rw [parseStrBody.eq_def]; simp [ih]
    · subst h3; rw [parseStrBody.eq_def]; simp [ih]
    · subst h4; rw [parseStrBody.eq_def]; simp [ih]
    · subst h5; rw [parseStrBody.eq_def]; simp [ih]
    · subst h6; rw [parseStrBody.eq_def]; simp [ih]
    · subst h7; rw [parseStrBody.eq_def]; simp [ih]
    · have e0 : hexVal 48 = some 0 := rfl
      have e1 := hexVal_hexDigit (b / 16) (by omega)
      have e2 := hexVal_hexDigit (b % 16) (by omega)
      have hb : b / 16 * 16 + b % 16 = b := by omega
      have hb2 : 0 * 4096 + 0 * 256 + b / 16 * 16 + b % 16 = b := by omega
      have hu : utf8Char b = [b] := by
        unfold utf8Char
        rw [if_pos (by omega)]
      rw [parseStrBody.eq_def]
      simp [e0, e1, e2, hb, hb2, hu, ih]
    · rw [parseStrBody.eq_def]
      simp [h1, h2, ih]

/-- A maximal digit run stops at a non-digit. -/
theorem digitsGo_stop (acc : Nat) (rest : Str) (h : numStop rest = true) :
    digitsGo acc rest = (acc, rest) := by
  cases rest with
  | nil => rfl
  | cons b r =>
    have hb : isDigit b = false := by
      unfold numStop at h
      simp only [Bool.and_eq_true, Bool.not_eq_true'] at h
      exact h.1.1.1
    simp [digitsGo, hb]

/-- Reading back the printed digits of a natural number accumulates
exactly that number. -/
theorem digitsGo_digits : ∀ (f n acc : Nat) (rest : Str), n < f →
    digitsGo acc (natDigitsF f n ++ rest)
      = digitsGo (acc * 10 ^ (natDigitsF f n).length + n) rest
  | 0, n, acc, rest, h => absurd h (by omega)
  | f + 1, n, acc, rest, h => by
    by_cases h10 : n < 10
    · have hd : isDigit (48 + n) = true := by
        unfold isDigit; simp only [Bool.and_eq_true, decide_eq_true_eq]; omega
      simp only [natDigitsF, if_pos h10, List.cons_append, List.nil_append,
        List.length_cons, List.length_nil]
      rw [digitsGo, if_pos hd]
      congr 1
      norm_num
    · have hlt : n / 10 < f := by omega
      have hd : isDigit (48 + n % 10) = true := by
        unfold isDigit; simp only [Bool.and_eq_true, decide_eq_true_eq]; omega
      have hrw : natDigitsF (f + 1) n = natDigitsF f (n / 10) ++ [48 + n % 10] := by
        rw [natDigitsF, if_neg h10]
      rw [hrw, List.append_assoc, List.cons_append, List.nil_append]
      rw [digitsGo_digits f (n / 10) acc ((48 + n % 10) :: rest) hlt]
      rw [digitsGo, if_pos hd]
      congr 1
      rw [List.length_append, List.length_cons, List.length_nil, pow_succ,
        ← Nat.mul_assoc, Nat.add_mul]
      omega

/-- The printed digits of a natural number start with a digit
character. -/
theorem natDigitsF_cons : ∀ (f n : Nat), n < f →
    ∃ b t, natDigitsF f n = b :: t ∧ 48 ≤ b ∧ b ≤ 57
  | 0, n, h => absurd h (by omega)
  | f + 1, n, h => by
    by_cases h10 : n < 10
    · exact ⟨48 + n, [], by rw [natDigitsF, if_pos h10], by omega, by omega⟩
    · obtain ⟨b, t, ht, hb1, hb2⟩ := natDigitsF_cons f (n / 10) (by omega)
      exact ⟨b, t ++ [48 + n % 10], by rw [natDigitsF, if_neg h10, ht]; rfl, hb1, hb2⟩

/-- Unfolding the number parser on a nonempty input. -/
theorem parseNum_cons (b : Nat) (r : Str) :
    parseNum (b :: r) =
      if b = 45 then
        match r with
        | [] => none
        | b2 :: r2 => if isDigit b2 then afterDigits true (digitsGo 0 (b2 :: r2)) else none
      else if isDigit b then afterDigits false (digitsGo 0 (b :: r))
      else none := rfl

/-- Parsing a printed natural number recovers it, whenever the remainder
does not continue the literal. -/
theorem parseNum_digits (n : Nat) (rest : Str) (h : numStop rest = true) :
    parseNum (natDigits n ++ rest) = some (.num (n : Int), rest) := by
  obtain ⟨b, t, ht, hb1, hb2⟩ := natDigitsF_cons (n + 1) n (by omega)
  have hform : natDigits n ++ rest = b :: (t ++ rest) := by
    unfold natDigits; rw [ht]; rfl
  rw [hform, parseNum_cons, if_neg (by omega : ¬ b = 45),
    if_pos (by unfold isDigit; simp only [Bool.and_eq_true, decide_eq_true_eq]; omega)]
  rw [← hform]
  unfold natDigits
  rw [digitsGo_digits (n + 1) n 0 rest (by omega), digitsGo_stop _ _ h]
  cases rest with
  | nil => simp [afterDigits]
  | cons b2 r2 =>
    have hb2 : (b2 = 46 || b2 = 101 || b2 = 69) = false := by
      unfold numStop at h
      simp only [Bool.and_eq_true, Bool.not_eq_true', decide_eq_false_iff_not] at h
      simp only [Bool.or_eq_false_iff, decide_eq_false_iff_not]
      exact ⟨⟨h.1.1.2, h.1.2⟩, h.2⟩
    simp [afterDigits, hb2]

/-- Whitespace skipping leaves a non-whitespace head alone. -/
theorem skipWs_cons (b : Nat) (l : Str) (h : isWs b = false) : skipWs (b :: l) = b :: l := by
  rw [skipWs, if_neg (by simp [h])]

/-- The printer output of a string value parses back to it. -/
theorem parseVal_str (f : Nat) (s rest : Str) :
    parseVal (f + 1) (stringify (.str s) ++ rest) = some (.str s, rest) := by
  have hsh : stringify ((.str s : Json)) ++ rest = 34 :: (escStr s ++ 34 :: rest) := by
    rw [stringify]
    simp [List.append_assoc]
  rw [hsh, parseVal.eq_def]
  simp only [skipWs_cons 34 _ (by decide)]
  simp [parseStrBody_escStr s rest]

/-- The printer output of a natural-number value parses back to it. -/
theorem parseVal_nat (f n : Nat) (rest : Str) (h : numStop rest = true) :
    parseVal (f + 1) (stringify (.num (n : Int)) ++ rest) = some (.num (n : Int), rest) := by
  have hsn : stringify ((.num (n : Int) : Json)) = natDigits n := by
    rw [stringify]
    rfl
  rw [hsn]
  obtain ⟨b, t, ht, hb1, hb2⟩ := natDigitsF_cons (n + 1) n (by omega)
  have hform : natDigits n ++ rest = b :: (t ++ rest) := by
    unfold natDigits; rw [ht]; rfl
  have hws : isWs b = false := by
    simp only [isWs, Bool.or_eq_false_iff, decide_eq_false_iff_not]
    omega
  have h1 : ¬ b = 110 := by omega
  have h2 : ¬ b = 116 := by omega
  have h3 : ¬ b = 102 := by omega
  have h4 : ¬ b = 34 := by omega
  have h5 : ¬ b = 91 := by omega
  have h6 : ¬ b = 123 := by omega
  rw [hform, parseVal.eq_def]
  simp [skipWs_cons b (t ++ rest) hws, h1, h2, h3, h4, h5, h6]
  rw [← hform]
  exact parseNum_digits n rest h

/-- The printer output of a flat object member list parses back to it,
when followed by the closing brace. -/
theorem parseMembers_flat : ∀ (kvs : List (Str × Json)) (f : Nat) (rest : Str),
    kvs ≠ [] → (∀ kv ∈ kvs, FlatMember kv) →
    parseMembers (f + 2 * kvs.length) (stringifyKvs kvs ++ 125 :: rest) = some (kvs, rest)
  | [], _, _, hne, _ => absurd rfl hne
  | [(k, v)], f, rest, _, hflat => by
    have hsh : stringifyKvs [(k, v)] ++ 125 :: rest
        = 34 :: (escStr k ++ 34 :: (58 :: (stringify v ++ 125 :: rest))) := by
      rw [stringifyKvs]
      simp [List.append_assoc]
    have hfuel : f + 2 * [(k, v)].length = (f + 1) + 1 := by
      rw [List.length_singleton]
    rw [hsh, hfuel, parseMembers.eq_def]
    simp only [skipWs_cons 34 _ (by decide)]
    rw [parseStrBody_escStr k (58 :: (stringify v ++ 125 :: rest))]
    simp only [skipWs_cons 58 _ (by decide)]
    rcases (hflat (k, v) (by simp)).2 with ⟨s, hv, _⟩ | ⟨m, hv⟩
    · subst hv
      rw [parseVal_str f s (125 :: rest)]
      simp [skipWs_cons 125 _ (by decide)]
    · subst hv
      rw [parseVal_nat f m (125 :: rest) (by rfl)]
      simp [skipWs_cons 125 _ (by decide)]
  | (k, v) :: (k2, v2) :: kvs2, f, rest, _, hflat => by
    have ih := parseMembers_flat ((k2, v2) :: kvs2) (f + 1) rest
      (by intro hx; exact List.noConfusion hx)
      (fun kv hkv => hflat kv (List.mem_cons_of_mem _ hkv))
    have hsh : stringifyKvs ((k, v) :: (k2, v2) :: kvs2) ++ 125 :: rest
        = 34 :: (escStr k ++ 34 :: (58 :: (stringify v
            ++ 44 :: (stringifyKvs ((k2, v2) :: kvs2) ++ 125 :: rest)))) := by
      rw [stringifyKvs]
      · simp [List.append_assoc]
      · intro hx
        exact List.noConfusion hx
    have hfuel : f + 2 * ((k, v) :: (k2, v2) :: kvs2).length
        = ((f + 1) + 2 * ((k2, v2) :: kvs2).length) + 1 := by
      rw [List.length_cons]
      omega
    rw [hsh, hfuel, parseMembers.eq_def]
    simp only [skipWs_cons 34 _ (by decide)]
    rw [parseStrBody_escStr k (58 :: (stringify v
      ++ 44 :: (stringifyKvs ((k2, v2) :: kvs2) ++ 125 :: rest)))]
    simp only [skipWs_cons 58 _ (by decide)]
    rcases (hflat (k, v) (by simp)).2 with ⟨s, hv, _⟩ | ⟨m, hv⟩
    · subst hv
      obtain ⟨g, hg⟩ : ∃ g, (f + 1) + 2 * ((k2, v2) :: kvs2).length = g + 1 :=
        ⟨f + 2 * ((k2, v2) :: kvs2).length, by omega⟩
      rw [hg, parseVal_str g s (44 :: (stringifyKvs ((k2, v2) :: kvs2) ++ 125 :: rest)), ← hg]
      simp only [skipWs_cons 44 _ (by decide)]
      rw [ih]
    · subst hv
      obtain ⟨g, hg⟩ : ∃ g, (f + 1) + 2 * ((k2, v2) :: kvs2).length = g + 1 :=
        ⟨f + 2 * ((k2, v2) :: kvs2).length, by omega⟩
      rw [hg, parseVal_nat g m (44 :: (stringifyKvs ((k2, v2) :: kvs2) ++ 125 :: rest))
        (by rfl), ← hg]
      simp only [skipWs_cons 44 _ (by decide)]
      rw [ih]

/-- Every printed member contributes enough characters for the fuel
bound. -/
theorem stringifyKvs_len : ∀ kvs : List (Str × Json),
    4 * kvs.length ≤ (stringifyKvs kvs).length + 1
  | [] => by simp [stringifyKvs]
  | [(k, v)] => by
    rw [stringifyKvs]
    simp only [List.length_singleton, List.length_cons, List.length_append, List.length_nil]
    omega
  | (k, v) :: (k2, v2) :: kvs2 => by
    have ih := stringifyKvs_len ((k2, v2) :: kvs2)
    rw [stringifyKvs]
    · simp only [List.length_cons, List.length_append]
      simp only [List.length_cons] at ih
      omega
    · intro hx
      exact List.noConfusion hx

/-- The printer output of a nonempty flat object parses back to it. -/
theorem parseVal_flatObj (f : Nat) (kvs : List (Str × Json)) (rest : Str)
    (h1 : kvs ≠ []) (h2 : ∀ kv ∈ kvs, FlatMember kv) :
    parseVal ((f + 2 * kvs.length) + 1) (stringify (.obj kvs) ++ rest)
      = some (.obj kvs, rest) := by
  obtain ⟨k, v, kvs2, rfl⟩ : ∃ k v kvs2, kvs = (k, v) :: kvs2 := by
    match kvs, h1 with
    | (k, v) :: kvs2, _ => exact ⟨k, v, kvs2, rfl⟩
  have hsh : stringify (.obj ((k, v) :: kvs2)) ++ rest
      = 123 :: (stringifyKvs ((k, v) :: kvs2) ++ 125 :: rest) := by
    rw [stringify]
    simp [List.append_assoc]
  obtain ⟨tl, htl⟩ : ∃ tl, stringifyKvs ((k, v) :: kvs2) = 34 :: tl := by
    cases kvs2 with
    | nil => rw [stringifyKvs]; exact ⟨_, rfl⟩
    | cons kv2 kvs3 =>
      rw [stringifyKvs]
      · exact ⟨_, rfl⟩
      · intro hx
        exact List.noConfusion hx
  have hmem := parseMembers_flat ((k, v) :: kvs2) f rest h1 h2
  rw [hsh, parseVal.eq_def]
  rw [htl] at hmem ⊢
  simp only [List.length_cons, List.cons_append] at hmem
  simp [skipWs_cons 123 _ (by decide), skipWs_cons 34 _ (by decide), hmem]

/-- JSON.parse of the full printer output of a nonempty flat object
recovers it. -/
theorem parseWhole_flatObj (kvs : List (Str × Json))
    (h1 : kvs ≠ []) (h2 : ∀ kv ∈ kvs, FlatMember kv) :
    parseWhole (stringify (.obj kvs)) = some (.obj kvs) := by
  have hk1 : 1 ≤ kvs.length := List.length_pos.mpr h1
  have hkl := stringifyKvs_len kvs
  have hsl : (stringify (.obj kvs)).length = (stringifyKvs kvs).length + 2 := by
    rw [stringify]
    simp [List.length_append]
  obtain ⟨f, hf⟩ : ∃ f, (stringify (.obj kvs)).length + 1 = (f + 2 * kvs.length) + 1 :=
    ⟨(stringify (.obj kvs)).length - 2 * kvs.length, by omega⟩
  have hpv := parseVal_flatObj f kvs [] h1 h2
  rw [List.append_nil] at hpv
  rw [parseWhole, hf, hpv]
  rfl

/-! ## Byte validity of printer output -/

/-- A hexadecimal digit of a bounded value is a byte. -/
theorem hexDigit_lt (d : Nat) (hd : d < 16) : hexDigit d < 256 := by
  unfold hexDigit
  split_ifs <;> omega

/-- Escaping a byte yields bytes. -/
theorem escByte_valid (b : Nat) (hb : b < 256) : ∀ c ∈ escByte b, c < 256 := by
  intro c hc
  unfold escByte at hc
  split_ifs at hc with h1 h2 h3 h4 h5 h6 h7 h8
  all_goals simp only [List.mem_cons, List.not_mem_nil, or_false] at hc
  · rcases hc with rfl | rfl <;> omega
  · rcases hc with rfl | rfl <;> omega
  · rcases hc with rfl | rfl <;> omega
  · rcases hc with rfl | rfl <;> omega
  · rcases hc with rfl | rfl <;> omega
  · rcases hc with rfl | rfl <;> omega
  · rcases hc with rfl | rfl <;> omega
  · rcases hc with rfl | rfl | rfl | rfl | rfl | rfl
    · omega
    · omega
    · omega
    · omega
    · exact hexDigit_lt _ (by omega)
    · exact hexDigit_lt _ (by omega)
  · rcases hc with rfl
    omega

/-- Escaping a byte string yields bytes. -/
theorem escStr_valid (s : Str) (hs : ValidBytes s) : ValidBytes (escStr s) := by
  intro c hc
  unfold escStr at hc
  rw [List.mem_flatten] at hc
  obtain ⟨l, hl, hcl⟩ := hc
  rw [List.mem_map] at hl
  obtain ⟨b, hb, rfl⟩ := hl
  exact escByte_valid b (hs b hb) c hcl

/-- Printed digits are bytes. -/
theorem natDigitsF_valid : ∀ (f n : Nat), ∀ c ∈ natDigitsF f n, c < 256
  | 0, n => by
    intro c hc
    rw [natDigitsF] at hc
    cases hc
  | f + 1, n => by
    intro c hc
    rw [natDigitsF] at hc
    by_cases h10 : n < 10
    · rw [if_pos h10] at hc
      simp only [List.mem_cons, List.not_mem_nil, or_false] at hc
      omega
    · rw [if_neg h10] at hc
      rw [List.mem_append] at hc
      rcases hc with hc | hc
      · exact natDigitsF_valid f (n / 10) c hc
      · simp only [List.mem_cons, List.not_mem_nil, or_false] at hc
        omega

/-- The printed number form of a natural cast. -/
theorem stringify_natCast (n : Nat) : stringify (.num (n : Int)) = natDigits n := by
  rw [stringify]
  rfl

/-- Byte validity is preserved under concatenation. -/
theorem validBytes_append (a b : Str) (ha : ValidBytes a) (hb : ValidBytes b) :
    ValidBytes (a ++ b) := by
  intro c hc
  rw [List.mem_append] at hc
  rcases hc with hc | hc
  · exact ha c hc
  · exact hb c hc

/-- Byte validity is preserved by prepending a byte. -/
theorem validBytes_cons (x : Nat) (a : Str) (hx : x < 256) (ha : ValidBytes a) :
    ValidBytes (x :: a) := by
  intro c hc
  rw [List.mem_cons] at hc
  rcases hc with rfl | hc
  · exact hx
  · exact ha c hc

/-- The empty string is a byte string. -/
theorem validBytes_nil : ValidBytes [] := by
  intro c hc
  cases hc

/-- The printer output of a flat value is a byte string. -/
theorem stringify_flatVal_valid (v : Json)
    (hv : (∃ s, v = Json.str s ∧ ValidBytes s) ∨ (∃ n : Nat, v = Json.num (n : Int))) :
    ValidBytes (stringify v) := by
  rcases hv with ⟨s, rfl, hs⟩ | ⟨n, rfl⟩
  · rw [stringify]
    exact validBytes_cons 34 _ (by omega)
      (validBytes_append _ _ (escStr_valid s hs) (validBytes_cons 34 _ (by omega) validBytes_nil))
  · rw [stringify_natCast]
    exact natDigitsF_valid (n + 1) n

/-- The printer output of a flat object member list is a byte string. -/
theorem stringifyKvs_valid : ∀ kvs : List (Str × Json),
    (∀ kv ∈ kvs, FlatMember kv) → ValidBytes (stringifyKvs kvs)
  | [], _ => by
    rw [stringifyKvs]
    exact validBytes_nil
  | [(k, v)], h => by
    have hm := h (k, v) (by simp)
    rw [stringifyKvs]
    exact validBytes_cons 34 _ (by omega)
      (validBytes_append _ _ (escStr_valid k hm.1)
        (validBytes_cons 34 _ (by omega)
          (validBytes_cons 58 _ (by omega) (stringify_flatVal_valid v hm.2))))
  | (k, v) :: (k2, v2) :: kvs2, h => by
    have hm := h (k, v) (by simp)
    have ih := stringifyKvs_valid ((k2, v2) :: kvs2)
      (fun kv hkv => h kv (List.mem_cons_of_mem _ hkv))
    rw [stringifyKvs]
    · exact validBytes_append _ _
        (validBytes_cons 34 _ (by omega)
          (validBytes_append _ _ (escStr_valid k hm.1)
            (validBytes_cons 34 _ (by omega)
              (validBytes_cons 58 _ (by omega) (stringify_flatVal_valid v hm.2)))))
        (validBytes_cons 44 _ (by omega) ih)
    · intro hx
      exact List.noConfusion hx

/-- The printer output of a flat object is a byte string. -/
theorem stringify_flatObj_valid (kvs : List (Str × Json))
    (h : ∀ kv ∈ kvs, FlatMember kv) : ValidBytes (stringify (.obj kvs)) := by
  rw [stringify]
  exact validBytes_cons 123 _ (by omega)
    (validBytes_append _ _ (stringifyKvs_valid kvs h)
      (validBytes_cons 125 _ (by omega) validBytes_nil))

/-- C8: for every configured key identifier and channel identifier made of
bytes (and any date, any PEM export and RSA signing primitive, and any
credential that passes the field check), the assertion generateJWT produces
is a three-part dot-separated string whose parts use only the unpadded
base64url alphabet; base64url-decoding and JSON-parsing the first part
yields exactly the header object with alg "RS256", typ "JWT" and the
configured kid, and the second part exactly the payload object with
iss = sub = the configured channel id, aud "https://api.line.me/",
exp = floor(now in ms / 1000) + 3600 seconds and token_exp = 86400. -/
theorem generateJWT_assertionStructure (exportPem : Json → Str)
    (rsaSign : Str → Str → Str) (kid cid : Str) (nowMs : Nat) (jwk : Json)
    (hkid : ValidBytes kid) (hcid : ValidBytes cid)
    (hjwk : firstMissing jwk = .ok none) :
    ∃ jwt p0 p1 p2,
      generateJWT exportPem rsaSign kid cid nowMs jwk = .ok jwt ∧
      splitDot jwt = [p0, p1, p2] ∧
      (∀ c ∈ p0, isB64urlChar c = true) ∧
      (∀ c ∈ p1, isB64urlChar c = true) ∧
      (∀ c ∈ p2, isB64urlChar c = true) ∧
      decodeJwtPart p0 = some (Json.obj
        [(utf8 "alg", Json.str (utf8 "RS256")),
         (utf8 "typ", Json.str (utf8 "JWT")),
         (utf8 "kid", Json.str kid)]) ∧
      decodeJwtPart p1 = some (Json.obj
        [(utf8 "iss", Json.str cid),
         (utf8 "sub", Json.str cid),
         (utf8 "aud", Json.str (utf8 "https://api.line.me/")),
         (utf8 "exp", Json.num ((nowMs / 1000 + 3600 : Nat) : Int)),
         (utf8 "token_exp", Json.num ((86400 : Nat) : Int))]) := by
  have hpem : generatePEM exportPem jwk = .ok (exportPem jwk) := by
    rw [generatePEM, hjwk]
  have hhm : ∀ kv ∈ [(utf8 "alg", Json.str (utf8 "RS256")),
      (utf8 "typ", Json.str (utf8 "JWT")), (utf8 "kid", Json.str kid)],
      FlatMember kv := by
    intro kv hkv
    simp only [List.mem_cons, List.not_mem_nil, or_false] at hkv
    rcases hkv with rfl | rfl | rfl
    · exact ⟨by decide, Or.inl ⟨_, rfl, by decide⟩⟩
    · exact ⟨by decide, Or.inl ⟨_, rfl, by decide⟩⟩
    · exact ⟨(by decide : ValidBytes (utf8 "kid")), Or.inl ⟨_, rfl, hkid⟩⟩
  have hpm : ∀ kv ∈ [(utf8 "iss", Json.str cid), (utf8 "sub", Json.str cid),
      (utf8 "aud", Json.str (utf8 "https://api.line.me/")),
      (utf8 "exp", Json.num ((nowMs / 1000 + 3600 : Nat) : Int)),
      (utf8 "token_exp", Json.num ((86400 : Nat) : Int))], FlatMember kv := by
    intro kv hkv
    simp only [List.mem_cons, List.not_mem_nil, or_false] at hkv
    rcases hkv with rfl | rfl | rfl | rfl | rfl
    · exact ⟨(by decide : ValidBytes (utf8 "iss")), Or.inl ⟨_, rfl, hcid⟩⟩
    · exact ⟨(by decide : ValidBytes (utf8 "sub")), Or.inl ⟨_, rfl, hcid⟩⟩
    · exact ⟨by decide, Or.inl ⟨_, rfl, by decide⟩⟩
    · exact ⟨(by decide : ValidBytes (utf8 "exp")), Or.inr ⟨nowMs / 1000 + 3600, rfl⟩⟩
    · exact ⟨by decide, Or.inr ⟨86400, rfl⟩⟩
  have hvh : ValidBytes (stringify (jwtHeader kid)) := stringify_flatObj_valid _ hhm
  have hvp : ValidBytes (stringify (jwtPayload cid nowMs)) := stringify_flatObj_valid _ hpm
  have hjwt : generateJWT exportPem rsaSign kid cid nowMs jwk
      = .ok ((b64url (stringify (jwtHeader kid))
            ++ 46 :: b64url (stringify (jwtPayload cid nowMs)))
          ++ 46 :: b64url (rsaSign (exportPem jwk)
            (b64url (stringify (jwtHeader kid))
              ++ 46 :: b64url (stringify (jwtPayload cid nowMs))))) := by
    simp only [generateJWT, hpem]
  have hsplit : splitDot ((b64url (stringify (jwtHeader kid))
          ++ 46 :: b64url (stringify (jwtPayload cid nowMs)))
        ++ 46 :: b64url (rsaSign (exportPem jwk)
          (b64url (stringify (jwtHeader kid))
            ++ 46 :: b64url (stringify (jwtPayload cid nowMs)))))
      = [b64url (stringify (jwtHeader kid)),
         b64url (stringify (jwtPayload cid nowMs)),
         b64url (rsaSign (exportPem jwk)
           (b64url (stringify (jwtHeader kid))
             ++ 46 :: b64url (stringify (jwtPayload cid nowMs))))] := by
    rw [List.append_assoc, List.cons_append]
    rw [splitDot_append _ _ (b64url_noDot _), splitDot_append _ _ (b64url_noDot _),
      splitDot_noDot _ (b64url_noDot _)]
  have hd0 : decodeJwtPart (b64url (stringify (jwtHeader kid)))
      = some (Json.obj [(utf8 "alg", Json.str (utf8 "RS256")),
                        (utf8 "typ", Json.str (utf8 "JWT")),
                        (utf8 "kid", Json.str kid)]) := by
    rw [decodeJwtPart.eq_def, b64url_roundtrip _ hvh]
    exact parseWhole_flatObj _ (by simp) hhm
  have hd1 : decodeJwtPart (b64url (stringify (jwtPayload cid nowMs)))
      = some (Json.obj [(utf8 "iss", Json.str cid),
                        (utf8 "sub", Json.str cid),
                        (utf8 "aud", Json.str (utf8 "https://api.line.me/")),
                        (utf8 "exp", Json.num ((nowMs / 1000 + 3600 : Nat) : Int)),
                        (utf8 "token_exp", Json.num ((86400 : Nat) : Int))]) := by
    rw [decodeJwtPart.eq_def, b64url_roundtrip _ hvp]
    exact parseWhole_flatObj _ (by simp) hpm
  exact ⟨_, _, _, _, hjwt, hsplit, b64url_chars _, b64url_chars _, b64url_chars _, hd0, hd1⟩

/-- The C8 theorem at a concrete key identifier, channel identifier, date
and credential. -/
theorem generateJWT_assertionStructure_witness :
    ∃ jwt p0 p1 p2,
      generateJWT (fun _ => utf8 "PEM-DATA") (fun _ m => m)
          (utf8 "kid-1") (utf8 "1654321") 1700000000000
          (Json.obj [(utf8 "kty", Json.str (utf8 "RSA")),
                     (utf8 "n", Json.str (utf8 "AQAB")),
                     (utf8 "e", Json.str (utf8 "AQAB")),
                     (utf8 "d", Json.str (utf8 "AQAB")),
                     (utf8 "p", Json.str (utf8 "AQAB")),
                     (utf8 "q", Json.str (utf8 "AQAB")),
                     (utf8 "dp", Json.str (utf8 "AQAB")),
                     (utf8 "dq", Json.str (utf8 "AQAB")),
                     (utf8 "qi", Json.str (utf8 "AQAB"))]) = .ok jwt ∧
      splitDot jwt = [p0, p1, p2] ∧
      (∀ c ∈ p0, isB64urlChar c = true) ∧
      (∀ c ∈ p1, isB64urlChar c = true) ∧
      (∀ c ∈ p2, isB64urlChar c = true) ∧
      decodeJwtPart p0 = some (Json.obj
        [(utf8 "alg", Json.str (utf8 "RS256")),
         (utf8 "typ", Json.str (utf8 "JWT")),
         (utf8 "kid", Json.str (utf8 "kid-1"))]) ∧
      decodeJwtPart p1 = some (Json.obj
        [(utf8 "iss", Json.str (utf8 "1654321")),
         (utf8 "sub", Json.str (utf8 "1654321")),
         (utf8 "aud", Json.str (utf8 "https://api.line.me/")),
         (utf8 "exp", Json.num ((1700000000000 / 1000 + 3600 : Nat) : Int)),
         (utf8 "token_exp", Json.num ((86400 : Nat) : Int))]) :=
  generateJWT_assertionStructure (fun _ => utf8 "PEM-DATA") (fun _ m => m)
    (utf8 "kid-1") (utf8 "1654321") 1700000000000
    (Json.obj [(utf8 "kty", Json.str (utf8 "RSA")),
               (utf8 "n", Json.str (utf8 "AQAB")),
               (utf8 "e", Json.str (utf8 "AQAB")),
               (utf8 "d", Json.str (utf8 "AQAB")),
               (utf8 "p", Json.str (utf8 "AQAB")),
               (utf8 "q", Json.str (utf8 "AQAB")),
               (utf8 "dp", Json.str (utf8 "AQAB")),
               (utf8 "dq", Json.str (utf8 "AQAB")),
               (utf8 "qi", Json.str (utf8 "AQAB"))])
    (by decide) (by decide) (by rfl)

end LineBot
